import Mathlib

/-!
Verification of the fixed-width record mapping and encoding engine of the
Monarch import generator (MonarchImporter.js, CustomerListImporter.js, and the
WIP importer), as a shallow embedding in Lean 4.

Conventions of the embedding:
* JavaScript field values are modelled by `JSVal` (string, number, null,
  undefined).  A JS `value.toString()` call is `JSVal.toStr?`; it is `none`
  on `null`/`undefined`, where JavaScript throws a TypeError, so encoders
  return `Option` and `none` models a thrown exception.
* The JS array line buffer is a `List Char`; `List.set` is a no-op when the
  index is out of bounds, which is exactly the behaviour guarded by the
  source's `pos + i < line.length` test.
* Date formatting, `parseFloat`/`toFixed`, and currency parsing depend on the
  JS runtime clock/float semantics and are abstracted as oracle functions in
  `JsOps`; no verified claim depends on their output.
* The customer-directory API call is modelled by its three observable
  outcomes (`LookupOutcome`): a first result with a `customer_id`, an
  empty/absent result, or a thrown transport error.
-/

namespace Monarch

/-- JavaScript values that can appear as a field's bound value. -/
inductive JSVal where
  | str (s : String)
  | num (n : Int)
  | nullv
  | undef
deriving DecidableEq, Repr

/-- JS truthiness for the values of `JSVal` (the job encoder's `if (def.value)`). -/
def JSVal.truthy : JSVal → Bool
  | .str s => s ≠ ""
  | .num n => n ≠ 0
  | .nullv => false
  | .undef => false

/-- The customer encoder's guard `def.value !== undefined`. -/
def JSVal.defined : JSVal → Bool
  | .undef => false
  | _ => true

/-- JS `value.toString()`: `none` on `null`/`undefined` models the TypeError
JavaScript throws there. -/
def JSVal.toStr? : JSVal → Option String
  | .str s => some s
  | .num n => some (toString n)
  | .nullv => none
  | .undef => none

/-- Values on which `.toString()` succeeds. -/
def JSVal.stringifiable : JSVal → Bool
  | .str _ => true
  | .num _ => true
  | .nullv => false
  | .undef => false

/-- A guarded field never makes the encoder throw. -/
def okForGuard (g : JSVal → Bool) (v : JSVal) : Bool :=
  v.stringifiable || !g v

/-! ### JS string primitives used by the importers -/

/-- JS `s.padEnd(n, c)`. -/
def jsPadEnd (s : String) (n : Nat) (c : Char) : String :=
  s ++ String.mk (List.replicate (n - s.length) c)

/-- JS `s.padStart(n, c)`. -/
def jsPadStart (s : String) (n : Nat) (c : Char) : String :=
  String.mk (List.replicate (n - s.length) c) ++ s

/-- JS `s.substring(0, n)`. -/
def jsSubstring0 (s : String) (n : Nat) : String :=
  String.mk (s.data.take n)

/-- JS `s.trim()`, charwise (ASCII whitespace suffices for the importers). -/
def jsTrim (s : String) : String :=
  String.mk
    (((s.data.dropWhile Char.isWhitespace).reverse.dropWhile Char.isWhitespace).reverse)

/-- JS `s.toLowerCase()`, charwise. -/
def jsToLower (s : String) : String :=
  String.mk (s.data.map Char.toLower)

/-- Does `cs` start with `pat`? -/
def headMatches : List Char → List Char → Bool
  | [], _ => true
  | _ :: _, [] => false
  | p :: ps, c :: cs => p == c && headMatches ps cs

/-- Fuel-driven scan for JS `split` on a non-empty literal separator. -/
def splitLoop : Nat → List Char → List Char → List Char → List (List Char)
  | 0, cs, _, acc => [acc.reverse ++ cs]
  | _ + 1, [], _, acc => [acc.reverse]
  | fuel + 1, c :: rest, sep, acc =>
    if headMatches sep (c :: rest) then
      acc.reverse :: splitLoop fuel ((c :: rest).drop sep.length) sep []
    else
      splitLoop fuel rest sep (c :: acc)

/-- JS `s.split(sep)` for a non-empty literal separator (the importers never
split on an empty pattern). -/
def jsSplit (s sep : String) : List String :=
  (splitLoop (s.data.length + 1) s.data sep.data []).map String.mk

/-- Join strings with a separator (JS `Array.prototype.join`). -/
def joinSep (sep : String) : List String → String
  | [] => ""
  | x :: xs => xs.foldl (fun acc y => acc ++ sep ++ y) x

/-- JS `s.includes(pat)` for a non-empty pattern. -/
def jsIncludes (s pat : String) : Bool :=
  (jsSplit s pat).length != 1

/-- `jobId.replace(/^0+/, match => ' '.repeat(match.length))`: leading zeros
become the same number of spaces. -/
def replaceLeadingZeros (s : String) : String :=
  String.mk (List.replicate (s.data.takeWhile (· == '0')).length ' '
    ++ s.data.dropWhile (· == '0'))

/-! ### The positional encoder -/

/-- One field of a record instance: bound value, 1-based byte position, byte
length (the `{ value, pos, len }` literals of the mapping tables). -/
structure EField where
  value : JSVal
  pos : Nat
  len : Nat
deriving DecidableEq, Repr

/-- An entry of a record object: field name and field. -/
abbrev NamedField := String × EField

/-- The write loop
`for (i = 0; i < Math.min(len, value.length); i++) if (pos+i < line.length) line[pos+i] = value[i]`.
`List.set` is a no-op out of bounds, exactly matching the bounds guard. -/
def placeChars : List Char → Nat → Nat → List Char → List Char
  | line, _, 0, _ => line
  | line, _, _ + 1, [] => line
  | line, p, k + 1, c :: cs => placeChars (line.set p c) (p + 1) k cs

/-- Writing one field under write-guard `g`: if the guard passes, the value is
stringified (throwing, i.e. `none`, on null/undefined) and placed at `pos-1`. -/
def writeField (g : JSVal → Bool) (line : List Char) (f : EField) : Option (List Char) :=
  if g f.value then
    match f.value.toStr? with
    | some s => some (placeChars line (f.pos - 1) f.len s.data)
    | none => none
  else
    some line

/-- Encoding all entries of a record object onto a line buffer, in order. -/
def encodeFields (g : JSVal → Bool) : List NamedField → List Char → Option (List Char)
  | [], line => some line
  | (_, f) :: fs, line =>
    match writeField g line f with
    | some line2 => encodeFields g fs line2
    | none => none

/-- One job/sub-job line (MonarchImporter.generateFixedWidthFile): a 560-space
buffer (`new Array(560 + 1).join(' ')`), fields written when truthy. -/
def generateJobLine (entries : List NamedField) : Option (List Char) :=
  encodeFields JSVal.truthy entries (List.replicate 560 ' ')

/-- One customer line (CustomerListImporter.generateCustomerImportFile): a
758-space buffer (`new Array(758).fill(' ')`), fields written when
`!== undefined`. -/
def generateCustomerLine (entries : List NamedField) : Option (List Char) :=
  encodeFields JSVal.defined entries (List.replicate 758 ' ')

/-- One WIP line (WIPImporter.generateFixedWidthFile): like the job line but
the `_metadata` entry is skipped by name before the truthiness check. -/
def generateWIPLine (entries : List NamedField) : Option (List Char) :=
  encodeFields JSVal.truthy (entries.filter (fun nf => nf.fst != "_metadata"))
    (List.replicate 560 ' ')

/-- `generateFixedWidthFile(jobs)`: each record's line followed by `"\n"`. -/
def generateFixedWidthFile : List (List NamedField) → Option String
  | [] => some ""
  | j :: js => do
    let l ← generateJobLine j
    let rest ← generateFixedWidthFile js
    some (String.mk l ++ "\n" ++ rest)

/-- The customer import file: one 758-byte line plus newline per record. -/
def generateCustomerImportFile : List (List NamedField) → Option String
  | [] => some ""
  | c :: cs => do
    let l ← generateCustomerLine c
    let rest ← generateCustomerImportFile cs
    some (String.mk l ++ "\n" ++ rest)

/-- The WIP import file: one 560-byte line plus newline per record. -/
def generateWIPFile : List (List NamedField) → Option String
  | [] => some ""
  | j :: js => do
    let l ← generateWIPLine j
    let rest ← generateWIPFile js
    some (String.mk l ++ "\n" ++ rest)

/-! ### The positional layouts (the wire-format tables)

`(name, pos, len)` triples copied from the record literals in
`mapOrdersToMonarch` (MonarchImporter.js; the WIP importer's
`mapToMonarchFormat` lists the identical positions) and
`mapCustomerListToMonarch` (CustomerListImporter.js). -/

/-- The job / sub-job / WIP record layout: 22 fields covering bytes 1..560. -/
def jobLayout : List (String × Nat × Nat) :=
  [ ("job_id", 1, 8),
    ("sub_job_id", 9, 4),
    ("job_description", 13, 254),
    ("job_type", 267, 19),
    ("item_id", 286, 15),
    ("cust_ordered_by", 301, 8),
    ("cust_billed_to", 309, 8),
    ("sales_class_id", 317, 8),
    ("po_number", 325, 20),
    ("date_promised", 345, 10),
    ("ship_date", 355, 10),
    ("qty_ordered", 365, 11),
    ("priority", 376, 10),
    ("contact_name", 386, 30),
    ("expense_code", 416, 24),
    ("shop_floor_active", 440, 1),
    ("form_number", 441, 20),
    ("quotation_amount", 461, 15),
    ("unit_of_measure_id", 476, 4),
    ("unit_price", 480, 16),
    ("job_title", 496, 50),
    ("forest_type_id", 546, 15) ]

/-- The customer record layout: 56 fields covering bytes 1..757 of the
758-byte line. -/
def customerLayout : List (String × Nat × Nat) :=
  [ ("Cust-code", 1, 8),
    ("Cust-name", 9, 40),
    ("Address-1", 49, 40),
    ("Address-2", 89, 40),
    ("Address-3", 129, 40),
    ("City", 169, 40),
    ("State", 209, 3),
    ("Zip", 212, 10),
    ("Country", 222, 40),
    ("Phone", 262, 20),
    ("FAX", 282, 20),
    ("E-Mail-Address", 302, 80),
    ("AR-Tax-Code", 382, 10),
    ("Terms-Code", 392, 20),
    ("Sales-agent-id", 412, 8),
    ("CSR-ID", 420, 3),
    ("territory-id", 423, 12),
    ("Cust-ID-Bill-to", 435, 8),
    ("Group-ID", 443, 12),
    ("Priority", 455, 10),
    ("Estimate-Markup-Pct", 465, 6),
    ("Overs-Allowed", 471, 5),
    ("Date-First-Order", 476, 10),
    ("PO-Required", 486, 1),
    ("AR-Stmt", 487, 1),
    ("AR-Stmt-Dunning-Msg", 488, 1),
    ("Inter-company", 489, 1),
    ("System-ID-Inter-company", 490, 12),
    ("Bank", 502, 20),
    ("Bank-acct-num", 522, 20),
    ("Sales-tax-exempt", 542, 20),
    ("Credit-Limit", 562, 14),
    ("Shipment-Method-ID", 576, 8),
    ("Tax-Number", 584, 20),
    ("Addl-Tax-Number", 604, 20),
    ("Industry-Code", 624, 8),
    ("Locale-ID", 632, 6),
    ("Prograph-Customer-Type", 638, 1),
    ("Prograph-Shipper", 639, 1),
    ("Prograph-Paper-Owner", 640, 1),
    ("Prograph-Advertiser", 641, 1),
    ("Prograph-Advertising-Agency", 642, 1),
    ("Allow-PSF-Access", 643, 1),
    ("PSF-Auto-Accept-Orders", 644, 1),
    ("PrinterSite-Exchange", 645, 1),
    ("Available-in-PrintStream", 646, 1),
    ("PS-Fulfillment", 647, 8),
    ("PS-Franchise-Number", 655, 30),
    ("PS-Store-Number", 685, 30),
    ("PS-Credit-Hold", 715, 1),
    ("AR-Stmt-Finance-Chrg", 716, 1),
    ("Allow-OPS", 717, 1),
    ("iQuote-Customer-ID", 718, 15),
    ("ARStatementDelivery", 733, 7),
    ("BatchCloseInvDelivery", 740, 7),
    ("PointOfTitleTransfer", 747, 11) ]

/-- Bind a list of values to a layout, producing a record instance. -/
def bindLayout (layout : List (String × Nat × Nat)) (vals : List JSVal) : List NamedField :=
  List.zipWith (fun nf v => (nf.1, EField.mk v nf.2.1 nf.2.2)) layout vals

/-- Total declared byte length of a layout. -/
def layoutSum (layout : List (String × Nat × Nat)) : Nat :=
  (layout.map (fun nf => nf.2.2)).sum

/-- The fields of a layout are contiguous starting at 1-based position `p`:
each field starts where the previous one ended. -/
def contigFromB : Nat → List (String × Nat × Nat) → Bool
  | _, [] => true
  | p, (_, q, l) :: rest => q == p && contigFromB (q + l) rest

/-- Two (pos, len) byte ranges do not overlap. -/
def rangesDisjointB (a b : Nat × Nat) : Bool :=
  a.1 - 1 + a.2 ≤ b.1 - 1 || b.1 - 1 + b.2 ≤ a.1 - 1

/-- Pairwise non-overlap of all field ranges of a layout. -/
def layoutPairwiseDisjointB : List (String × Nat × Nat) → Bool
  | [] => true
  | (_, p, l) :: rest =>
    rest.all (fun nf => rangesDisjointB (p, l) nf.2) && layoutPairwiseDisjointB rest

/-- Look up a field's bound value in a record instance by field name. -/
def fieldVal (entries : List NamedField) (name : String) : Option JSVal :=
  (entries.find? (fun e => e.fst == name)).map (fun e => e.snd.value)

/-- The first `n` characters of `s`, right-padded with spaces to length `n`
(the byte image of one encoded field). -/
def padStr (s : String) (n : Nat) : List Char :=
  s.data.take n ++ List.replicate (n - s.data.length) ' '

/-- The byte image a guarded write leaves in a field's range: the padded value
when the guard passes, untouched spaces otherwise. -/
def fieldPad (g : JSVal → Bool) (v : JSVal) (n : Nat) : List Char :=
  if g v then padStr ((v.toStr?).getD "") n else List.replicate n ' '

/-- The slice `[a, a+n)` of a line. -/
def subSlice (l : List Char) (a n : Nat) : List Char :=
  (l.drop a).take n

/-! ### Order rows and the job mapping (MonarchImporter.mapOrdersToMonarch) -/

/-- One parsed order CSV row, restricted to the columns the mapper reads
(values are trimmed strings; a missing column is the empty string, matching
the source's `|| ''` fallbacks). -/
structure OrderRow where
  invoiceNumber : String
  dueDate : String
  shippingDate : String
  poNumber : String
  customerName : String
  productName : String
  quantity : String
  unitPrice : String
  amount : String
deriving DecidableEq, Repr

/-- One parsed customer CSV row, restricted to the columns the job mapper
reads for the contact name. -/
structure CustomerRow where
  customerId : String
  firstName : String
  lastName : String
deriving DecidableEq, Repr

/-- Oracles for the JS runtime primitives the mapping calls but no claim
depends on: `formatDate(new Date(s))`, `parseFloat(s).toFixed(0)`,
`parseFloat(s).toFixed(2)`, and the WIP importer's currency cleanup. -/
structure JsOps where
  fmtDate : String → String
  toFixed0 : String → String
  toFixed2 : String → String
  currency : String → String

/-- Observable outcomes of `await customerApiService.searchCustomers(name)`:
a non-empty array whose first element has `customer_id`, a null/empty/
non-array result, or a thrown error with a message. -/
inductive LookupOutcome where
  | found (customerId : String)
  | notFound
  | apiError (message : String)
deriving DecidableEq, Repr

/-- `cleanProductDescription`: strips sample/address annotations after a
`" : "` delimiter; a bare "Shipping" is passed through. -/
def cleanProductDescription (description : String) : String :=
  if description = "" then ""
  else if jsToLower (jsTrim description) = "shipping" then description
  else if jsIncludes description " : " then
    let pre := jsTrim ((jsSplit description " : ").getD 0 "")
    let rest := (jsSplit description " : ").getD 1 ""
    if jsIncludes rest " - Sample" then
      pre ++ " : " ++ jsTrim ((jsSplit rest " - Sample").getD 0 "")
    else if jsIncludes rest " - " then
      pre ++ " : " ++ jsTrim ((jsSplit rest " - ").getD 0 "")
    else description
  else description

/-- Order-path job id: `invoiceNumber.padEnd(8, ' ').substring(0, 8)` with
leading zeros then replaced by spaces. -/
def monarchJobId (invoiceNumber : String) : String :=
  replaceLeadingZeros (jsSubstring0 (jsPadEnd invoiceNumber 8 ' ') 8)

/-- WIP-path job id: `('N' + orderId).padEnd(8, ' ').substring(0, 8)`. -/
def wipJobId (orderId : String) : String :=
  jsSubstring0 (jsPadEnd ("N" ++ orderId) 8 ' ') 8

/-- Modelled from the spec's words for the order path of claim C7 / §4.4,
for comparison with `monarchJobId`: "job id is derived from the invoice
number, left-padded with zeros to 8 digits then with leading zeros replaced
by spaces". -/
def specOrderJobIdRule (invoiceNumber : String) : String :=
  replaceLeadingZeros (jsPadStart invoiceNumber 8 '0')

/-- `if raw then formatDate(new Date(raw)) else ''`. -/
def condFmtDate (ops : JsOps) (raw : String) : String :=
  if raw ≠ "" then ops.fmtDate raw else ""

/-- `if raw then parseFloat(raw).toFixed(0).toString() else '0'`. -/
def condFixed0 (ops : JsOps) (raw : String) : String :=
  if raw ≠ "" then ops.toFixed0 raw else "0"

/-- `if raw then parseFloat(raw).toFixed(2).toString() else '0.00'`. -/
def condFixed2 (ops : JsOps) (raw : String) : String :=
  if raw ≠ "" then ops.toFixed2 raw else "0.00"

/-- Contact name from the customer list: first + last name of the customer
whose `Customer ID` equals the order's customer name, else empty. -/
def contactNameFor (customerData : List CustomerRow) (name : String) : String :=
  match customerData.find? (fun c => c.customerId == name) with
  | some c => jsTrim (c.firstName ++ " " ++ c.lastName)
  | none => ""

/-- The job record literal of `mapOrdersToMonarch` (both the main-job and the
sub-job pushes use this same table; only the argument values differ). -/
def mkJobRecord (jobId subJobId description custId poNumber datePromised
    shipDate qtyOrdered contactName quotationAmount unitPrice title : String) :
    List NamedField :=
  [ ("job_id", EField.mk (.str jobId) 1 8),
    ("sub_job_id", EField.mk (.str subJobId) 9 4),
    ("job_description", EField.mk (.str description) 13 254),
    ("job_type", EField.mk (.str "Production") 267 19),
    ("item_id", EField.mk (.str "") 286 15),
    ("cust_ordered_by", EField.mk (.str custId) 301 8),
    ("cust_billed_to", EField.mk (.str custId) 309 8),
    ("sales_class_id", EField.mk (.str "113") 317 8),
    ("po_number", EField.mk (.str poNumber) 325 20),
    ("date_promised", EField.mk (.str datePromised) 345 10),
    ("ship_date", EField.mk (.str shipDate) 355 10),
    ("qty_ordered", EField.mk (.str qtyOrdered) 365 11),
    ("priority", EField.mk (.str "") 376 10),
    ("contact_name", EField.mk (.str contactName) 386 30),
    ("expense_code", EField.mk (.str "") 416 24),
    ("shop_floor_active", EField.mk (.str "0") 440 1),
    ("form_number", EField.mk (.str "") 441 20),
    ("quotation_amount", EField.mk (.str quotationAmount) 461 15),
    ("unit_of_measure_id", EField.mk (.str "Each") 476 4),
    ("unit_price", EField.mk (.str unitPrice) 480 16),
    ("job_title", EField.mk (.str title) 496 50),
    ("forest_type_id", EField.mk (.str "") 546 15) ]

/-- A rejected order, as accumulated in `this.rejectedOrders`. -/
structure RejectedOrder where
  invoiceNumber : String
  customerName : String
  productName : String
  poNumber : String
  dueDate : String
  amount : String
  reason : String
deriving DecidableEq, Repr

/-- The rejected-order record built from the group's first order. -/
def mkRejectedOrder (ops : JsOps) (invoiceNumber : String) (firstOrder : OrderRow)
    (reason : String) : RejectedOrder :=
  { invoiceNumber := invoiceNumber
    customerName := firstOrder.customerName
    productName := firstOrder.productName
    poNumber := firstOrder.poNumber
    dueDate := condFmtDate ops firstOrder.dueDate
    amount := firstOrder.amount
    reason := reason }

/-- The sub-job loop `for (let i = 1; i < orders.length; i++)`, started at
index `i`: each additional order line becomes a numbered sub-job reusing the
group's job id, customer id, PO number, dates and contact name. -/
def buildSubJobs (ops : JsOps) (jobId custId poNumber dueDate shipDate
    contactName : String) : Nat → List OrderRow → List (List NamedField)
  | _, [] => []
  | i, o :: os =>
    mkJobRecord jobId (jsSubstring0 (jsPadEnd (toString i) 4 ' ') 4)
      (jsSubstring0 (cleanProductDescription o.productName) 254)
      custId (jsSubstring0 poNumber 20) dueDate shipDate
      (condFixed0 ops o.quantity) (jsSubstring0 contactName 30)
      (condFixed2 ops o.amount) (condFixed2 ops o.unitPrice)
      (jsSubstring0 (cleanProductDescription o.productName) 50)
    :: buildSubJobs ops jobId custId poNumber dueDate shipDate contactName (i + 1) os

/-- The body of the per-invoice loop of `mapOrdersToMonarch`: resolve the
group's customer once; on success emit one main job (blank sub-job id) plus
one numbered sub-job per remaining line; on a miss or API error emit exactly
one rejected order and nothing else. -/
def processGroup (ops : JsOps) (lookup : String → LookupOutcome)
    (customerData : List CustomerRow) (invoiceNumber : String) :
    List OrderRow → List (List NamedField) × List (List NamedField) × List RejectedOrder
  | [] => ([], [], [])
  | firstOrder :: restOrders =>
    let jobId := monarchJobId invoiceNumber
    let dueDate := condFmtDate ops firstOrder.dueDate
    let shipDate := condFmtDate ops firstOrder.shippingDate
    let poNumber := firstOrder.poNumber
    let customerName := firstOrder.customerName
    match lookup customerName with
    | .notFound =>
      ([], [], [mkRejectedOrder ops invoiceNumber firstOrder
        "Customer not found in Monarch database"])
    | .apiError msg =>
      ([], [], [mkRejectedOrder ops invoiceNumber firstOrder ("API Error: " ++ msg)])
    | .found rawCustomerId =>
      let custId := jsSubstring0 rawCustomerId 8
      let contactName := contactNameFor customerData customerName
      let mainJob := mkJobRecord jobId "    "
        (jsSubstring0 (cleanProductDescription firstOrder.productName) 254)
        custId (jsSubstring0 poNumber 20) dueDate shipDate
        (condFixed0 ops firstOrder.quantity) (jsSubstring0 contactName 30)
        (condFixed2 ops firstOrder.amount) (condFixed2 ops firstOrder.unitPrice)
        (jsSubstring0 (cleanProductDescription firstOrder.productName) 50)
      ([mainJob],
       buildSubJobs ops jobId custId poNumber dueDate shipDate contactName 1 restOrders,
       [])

/-- Append an order to its invoice's group, keeping first-appearance order
(the claims proved here do not depend on the group iteration order, so the
JS object-key numeric reordering of integer-like keys is immaterial). -/
def addToGroup (groups : List (String × List OrderRow)) (k : String) (o : OrderRow) :
    List (String × List OrderRow) :=
  match groups with
  | [] => [(k, [o])]
  | (k2, os) :: rest =>
    if k2 = k then (k2, os ++ [o]) :: rest else (k2, os) :: addToGroup rest k o

/-- `ordersByInvoice`: group the order rows by their `Invoice Number`. -/
def groupByInvoice (orders : List OrderRow) : List (String × List OrderRow) :=
  orders.foldl (fun gs o => addToGroup gs o.invoiceNumber o) []

/-- Process every invoice group, concatenating main jobs, sub-jobs and
rejected orders; one group's rejection never aborts the remaining groups. -/
def processGroups (ops : JsOps) (lookup : String → LookupOutcome)
    (customerData : List CustomerRow) :
    List (String × List OrderRow) →
    List (List NamedField) × List (List NamedField) × List RejectedOrder
  | [] => ([], [], [])
  | (inv, orders) :: rest =>
    let r1 := processGroup ops lookup customerData inv orders
    let r2 := processGroups ops lookup customerData rest
    (r1.1 ++ r2.1, r1.2.1 ++ r2.2.1, r1.2.2 ++ r2.2.2)

/-- `mapOrdersToMonarch`: group by invoice, then process each group. -/
def mapOrdersToMonarch (ops : JsOps) (lookup : String → LookupOutcome)
    (customerData : List CustomerRow) (orderData : List OrderRow) :
    List (List NamedField) × List (List NamedField) × List RejectedOrder :=
  processGroups ops lookup customerData (groupByInvoice orderData)

/-! ### The WIP importer (WIPImporter) -/

/-- One decoded WIP spreadsheet row, with the `findColumn` header-synonym
resolution already applied (each field holds the first non-empty value among
the source's accepted header spellings, or the empty string). -/
structure WIPRow where
  orderId : String
  customerName : String
  salesperson : String
  csr : String
  projectName : String
  orderDate : String
  dueDate : String
  orderValue : String
deriving DecidableEq, Repr

/-- The 4-to-7-digit test `/^\d{4,7}$/` of `isValidOrderId`. -/
def matchesOrderIdPat (s : String) : Bool :=
  decide (4 ≤ s.length) && decide (s.length ≤ 7) && s.data.all Char.isDigit

/-- `isValidOrderId`: falsy order ids fail immediately, otherwise the trimmed
id must match `/^\d{4,7}$/`. -/
def isValidOrderId (orderId : String) : Bool :=
  if orderId = "" then false else matchesOrderIdPat (jsTrim orderId)

/-- One entry of `this.skippedRows`. -/
structure SkippedRow where
  rowNumber : Nat
  orderId : String
  customerName : String
  reason : String
deriving DecidableEq, Repr

/-- The skipped-row record for the data row at 0-based index `i`. -/
def mkSkippedRow (i : Nat) (row : WIPRow) : SkippedRow :=
  { rowNumber := i + 2
    orderId := if row.orderId = "" then "(empty)" else row.orderId
    customerName := row.customerName
    reason :=
      if row.orderId ≠ "" then "Invalid Order ID format: " ++ row.orderId
      else "Missing Order ID" }

/-- The `forEach` of `filterValidOrders`, carried out from data-row index `i`:
valid rows are kept for mapping, invalid rows become skipped rows. -/
def filterValidOrdersFrom : Nat → List WIPRow → List WIPRow × List SkippedRow
  | _, [] => ([], [])
  | i, row :: rest =>
    let r := filterValidOrdersFrom (i + 1) rest
    if isValidOrderId row.orderId then (row :: r.1, r.2)
    else (r.1, mkSkippedRow i row :: r.2)

/-- `filterValidOrders`: partition the decoded rows into `filteredData` and
`skippedRows`. -/
def filterValidOrders (rows : List WIPRow) : List WIPRow × List SkippedRow :=
  filterValidOrdersFrom 0 rows

/-- A rejected WIP order (customer lookup failed). -/
structure WIPRejected where
  orderId : String
  customerName : String
  projectName : String
  dueDate : String
  orderValue : String
  reason : String
deriving DecidableEq, Repr

/-- `if !value then '0.00' else <strip $ and commas, parseFloat, toFixed(2)>`;
the numeric part is the `currency` oracle. -/
def condCurrency (ops : JsOps) (raw : String) : String :=
  if raw = "" then "0.00" else ops.currency raw

/-- `formatDate` of the WIP importer returns `''` on a falsy input, else the
formatted date (oracle). -/
def wipFmtDate (ops : JsOps) (raw : String) : String :=
  if raw = "" then "" else ops.fmtDate raw

/-- The WIP job record literal of `mapToMonarchFormat` (same positions as the
order-path table), including the `_metadata` entry that carries no
`{value, pos, len}` field and is skipped by every encoder. -/
def mkWIPJobRecord (jobId custId description datePromised orderValue title : String) :
    List NamedField :=
  [ ("job_id", EField.mk (.str jobId) 1 8),
    ("sub_job_id", EField.mk (.str "    ") 9 4),
    ("job_description", EField.mk (.str description) 13 254),
    ("job_type", EField.mk (.str "Production") 267 19),
    ("item_id", EField.mk (.str "") 286 15),
    ("cust_ordered_by", EField.mk (.str custId) 301 8),
    ("cust_billed_to", EField.mk (.str custId) 309 8),
    ("sales_class_id", EField.mk (.str "113") 317 8),
    ("po_number", EField.mk (.str "") 325 20),
    ("date_promised", EField.mk (.str datePromised) 345 10),
    ("ship_date", EField.mk (.str "") 355 10),
    ("qty_ordered", EField.mk (.str "1") 365 11),
    ("priority", EField.mk (.str "") 376 10),
    ("contact_name", EField.mk (.str "") 386 30),
    ("expense_code", EField.mk (.str "") 416 24),
    ("shop_floor_active", EField.mk (.str "0") 440 1),
    ("form_number", EField.mk (.str "") 441 20),
    ("quotation_amount", EField.mk (.str orderValue) 461 15),
    ("unit_of_measure_id", EField.mk (.str "Each") 476 4),
    ("unit_price", EField.mk (.str orderValue) 480 16),
    ("job_title", EField.mk (.str title) 496 50),
    ("forest_type_id", EField.mk (.str "") 546 15),
    ("_metadata", EField.mk .undef 0 0) ]

/-- `mapToMonarchFormat`: for each filtered row, resolve the customer; on
success push one job record, on a miss or API error push one rejected order
and continue with the next row. -/
def wipMapToMonarch (ops : JsOps) (lookup : String → LookupOutcome) :
    List WIPRow → List (List NamedField) × List WIPRejected
  | [] => ([], [])
  | row :: rest =>
    let orderId := jsTrim row.orderId
    let projectName := row.projectName
    let dueDate := wipFmtDate ops row.dueDate
    let orderValue := condCurrency ops row.orderValue
    let jobId := wipJobId orderId
    let r := wipMapToMonarch ops lookup rest
    match lookup row.customerName with
    | .notFound =>
      (r.1,
       { orderId := orderId, customerName := row.customerName,
         projectName := projectName, dueDate := dueDate,
         orderValue := orderValue,
         reason := "Customer not found in Monarch database" } :: r.2)
    | .apiError msg =>
      (r.1,
       { orderId := orderId, customerName := row.customerName,
         projectName := projectName, dueDate := dueDate,
         orderValue := orderValue,
         reason := "API Error: " ++ msg } :: r.2)
    | .found rawCustomerId =>
      let custId := jsSubstring0 rawCustomerId 8
      (mkWIPJobRecord jobId custId (jsSubstring0 projectName 254)
        dueDate orderValue (jsSubstring0 projectName 50) :: r.1,
       r.2)

/-! ### Rejection report CSVs -/

/-- One step of `s.replace(/"/g, '""')`: double every embedded quote. -/
def doubleQuotes : List Char → List Char
  | [] => []
  | c :: cs => if c = '"' then '"' :: '"' :: doubleQuotes cs else c :: doubleQuotes cs

/-- The always-quote escape the generators apply to the name/product/PO/reason
columns: wrap in double quotes, doubling embedded quotes
(`"${field.replace(/"/g, '""')}"`). -/
def csvEscapeAlways (s : String) : String :=
  "\"" ++ String.mk (doubleQuotes s.data) ++ "\""

/-- One data row of the job-import rejection CSV: invoice number, due date and
amount are written raw; the other columns are quote-escaped. -/
def monarchRejectionRow (o : RejectedOrder) : String :=
  joinSep ","
    [o.invoiceNumber, csvEscapeAlways o.customerName, csvEscapeAlways o.productName,
     csvEscapeAlways o.poNumber, o.dueDate, o.amount, csvEscapeAlways o.reason]

/-- Header of the job-import rejection CSV. -/
def monarchRejectionHeader : String :=
  joinSep ","
    ["Invoice Number", "Customer Name", "Product", "PO Number", "Due Date",
     "Amount", "Rejection Reason"]

/-- `MonarchImporter.generateRejectionFile`. -/
def monarchRejectionFile (rejected : List RejectedOrder) : String :=
  if rejected.length = 0 then "No rejected orders."
  else rejected.foldl (fun acc o => acc ++ monarchRejectionRow o ++ "\n")
    (monarchRejectionHeader ++ "\n")

/-- One data row of the WIP rejection CSV: order id, due date and order value
are written raw; the other columns are quote-escaped. -/
def wipRejectionRow (o : WIPRejected) : String :=
  joinSep ","
    [o.orderId, csvEscapeAlways o.customerName, csvEscapeAlways o.projectName,
     o.dueDate, o.orderValue, csvEscapeAlways o.reason]

/-- Header of the WIP rejection CSV. -/
def wipRejectionHeader : String :=
  joinSep ","
    ["Order ID", "Customer Name", "Project Name", "Due Date", "Order Value",
     "Rejection Reason"]

/-- `WIPImporter.generateRejectionFile`. -/
def wipRejectionFile (rejected : List WIPRejected) : String :=
  if rejected.length = 0 then "No rejected orders."
  else rejected.foldl (fun acc o => acc ++ wipRejectionRow o ++ "\n")
    (wipRejectionHeader ++ "\n")

/-- Standard quote-aware CSV field splitting of one line (double quotes toggle
quoted mode; a comma splits only outside quotes).  Used to state what a
conforming CSV consumer reads back from a generated row. -/
def csvSplitFields : List Char → Bool → String → List String
  | [], _, cur => [cur]
  | c :: rest, inQ, cur =>
    if c = '"' then csvSplitFields rest (!inQ) cur
    else if c = ',' && !inQ then cur :: csvSplitFields rest false ""
    else csvSplitFields rest inQ (cur.push c)

/-- Split one CSV line into its fields, honouring standard double-quoting. -/
def csvSplitLine (s : String) : List String :=
  csvSplitFields s.data false ""

/-- Concatenation of a list of strings. -/
def joinAll : List String → String
  | [] => ""
  | x :: xs => x ++ joinAll xs

/-- A CSV output column: raw content plus whether the generator escapes it. -/
def renderCSVField : String × Bool → String
  | (s, true) => csvEscapeAlways s
  | (s, false) => s

/-- The characters of a comma-joined row of rendered columns. -/
def flatFields : List (String × Bool) → List Char
  | [] => []
  | [f] => (renderCSVField f).data
  | f :: rest => (renderCSVField f).data ++ ',' :: flatFields rest

/-! ### Batch orchestrators -/

/-- The discriminated result object every orchestrator returns.  Optional
count fields model the extra keys present on some success results. -/
structure ImportResult where
  success : Bool
  message : String
  rejectedCount : Option Nat := none
  recordCount : Option Nat := none
  skippedCount : Option Nat := none
deriving DecidableEq, Repr

/-- `MonarchImporter.processFiles`: the whole body runs inside one
`try`/`catch`; a rejected parse (or any other internal throw, modelled as a
`none` from an encoder) becomes the failure shape, success reports the
rejected-order count. -/
def processFiles (ops : JsOps) (lookup : String → LookupOutcome)
    (parseOutcome : Except String (List CustomerRow × List OrderRow)) : ImportResult :=
  match parseOutcome with
  | .error e => { success := false, message := "Error processing files: " ++ e }
  | .ok (customerData, orderData) =>
    let r := mapOrdersToMonarch ops lookup customerData orderData
    match generateFixedWidthFile r.1, generateFixedWidthFile r.2.1 with
    | some _, some _ =>
      let base := "Monarch job import files generated successfully!"
      let msg :=
        if r.2.2.length > 0 then
          base ++ " " ++ toString r.2.2.length ++
            " orders were rejected due to missing customer data."
        else base
      { success := true, message := msg, rejectedCount := some r.2.2.length }
    | _, _ =>
      -- an encoder throw (unreachable: job values are strings) caught by the handler
      { success := false, message := "Error processing files: TypeError" }

/-- `CustomerListImporter.processFile`: parse, encode, download; any rejection
or throw is caught and converted to the failure shape. -/
def customerProcessFile (parseOutcome : Except String Unit) : ImportResult :=
  match parseOutcome with
  | .error e => { success := false, message := "Error processing customer list: " ++ e }
  | .ok _ =>
    { success := true, message := "Customer import file generated successfully!" }

/-- `WIPImporter.processFile`: parse, reject empty input, filter, reject an
all-skipped batch, map with lookups, encode; throws become the failure shape.
`columnsFound` stands for the debug column listing interpolated into the
all-skipped message. -/
def wipProcessFile (ops : JsOps) (lookup : String → LookupOutcome)
    (columnsFound : String)
    (parseOutcome : Except String (List WIPRow)) : ImportResult :=
  match parseOutcome with
  | .error e => { success := false, message := "Error processing XLS file: " ++ e }
  | .ok wipData =>
    if wipData.length = 0 then
      { success := false, message := "No data found in XLS file" }
    else
      let fr := filterValidOrders wipData
      if fr.1.length = 0 then
        { success := false, message :=
            "No valid orders found. All " ++ toString fr.2.length ++
            " rows were skipped (Order ID must be 4-7 digits).\n\nColumns found: " ++
            columnsFound ++ "\n\nCheck browser console (F12) for more details." }
      else
        let mr := wipMapToMonarch ops lookup fr.1
        match generateWIPFile mr.1 with
        | none =>
          -- an encoder throw (unreachable: WIP job values are strings) caught by the handler
          { success := false, message := "Error processing XLS file: TypeError" }
        | some _ =>
          let successful := fr.1.length - mr.2.length
          let m1 := "WIP import file generated successfully with " ++
            toString successful ++ " records"
          let m2 := if fr.2.length > 0 then
              m1 ++ " (" ++ toString fr.2.length ++
              " rows skipped - invalid Order ID format)"
            else m1
          let m3 := if mr.2.length > 0 then
              m2 ++ " (" ++ toString mr.2.length ++
              " orders rejected - customer not found)"
            else m2
          { success := true, message := m3,
            recordCount := some successful,
            skippedCount := some fr.2.length,
            rejectedCount := some mr.2.length }

/-! ### Sample inputs used by the witness theorems -/

/-- Identity oracles: each runtime primitive returns its input unchanged. -/
def sampleOps : JsOps :=
  { fmtDate := fun s => s, toFixed0 := fun s => s,
    toFixed2 := fun s => s, currency := fun s => s }

/-- A directory in which every search hits, with a 9-character id (so the
8-character truncation is observable). -/
def lookupHit : String → LookupOutcome := fun _ => .found "MONCUST99"

/-- A directory in which every search misses. -/
def lookupMiss : String → LookupOutcome := fun _ => .notFound

/-- A directory whose transport always fails. -/
def lookupDown : String → LookupOutcome := fun _ => .apiError "timeout"

/-- The all-empty order row. -/
def emptyOrder : OrderRow :=
  { invoiceNumber := "", dueDate := "", shippingDate := "", poNumber := "",
    customerName := "", productName := "", quantity := "", unitPrice := "",
    amount := "" }

/-- A sample order line. -/
def sampleOrder1 : OrderRow :=
  { invoiceNumber := "520", dueDate := "2025-01-02", shippingDate := "",
    poNumber := "PO-77", customerName := "Acme Co",
    productName := "Booklet", quantity := "100", unitPrice := "1.50",
    amount := "150" }

/-- A second line of the same invoice. -/
def sampleOrder2 : OrderRow :=
  { invoiceNumber := "520", dueDate := "2025-01-02", shippingDate := "",
    poNumber := "PO-77", customerName := "Acme Co",
    productName := "Shipping", quantity := "1", unitPrice := "9.99",
    amount := "9.99" }

/-- A WIP row with a valid 5-digit order id. -/
def sampleWIPRow : WIPRow :=
  { orderId := "12345", customerName := "Acme Co", salesperson := "S",
    csr := "C", projectName := "Poster", orderDate := "", dueDate := "",
    orderValue := "25" }

/-- A WIP row whose order id fails the 4-to-7-digit gate. -/
def badWIPRow : WIPRow :=
  { orderId := "ABC12", customerName := "Beta LLC", salesperson := "",
    csr := "", projectName := "", orderDate := "", dueDate := "",
    orderValue := "" }

/-- A record instance with an empty value and an over-long value crossing the
end of the job buffer. -/
def sampleEntries1 : List NamedField :=
  [ ("empty_field", EField.mk (.str "") 1 5),
    ("overlong_field", EField.mk (.str "THIS VALUE IS FAR TOO LONG FOR ITS FIELD") 550 20) ]

/-- 22 identical one-character values for the job layout. -/
def sampleJobVals : List String := List.replicate 22 "X"

/-- A rejected order whose amount contains a comma. -/
def sampleRejected : RejectedOrder :=
  { invoiceNumber := "100", customerName := "Acme", productName := "Widget",
    poNumber := "PO1", dueDate := "01/02/2025", amount := "1,234.56",
    reason := "Customer not found in Monarch database" }

/-! ## Core lemmas about the positional encoder -/

theorem placeChars_length (cs : List Char) (k : Nat) (line : List Char) (p : Nat) :
    (placeChars line p k cs).length = line.length := by
  induction cs generalizing k line p with
  | nil => cases k <;> simp [placeChars]
  | cons c cs ih =>
    cases k with
    | zero => simp [placeChars]
    | succ k => simp [placeChars, ih, List.length_set]

theorem take_min_length (cs : List Char) (k : Nat) :
    cs.take (min k cs.length) = cs.take k := by
  rcases Nat.le_total k cs.length with h | h
  · rw [Nat.min_eq_left h]
  · rw [Nat.min_eq_right h, List.take_of_length_le h, List.take_of_length_le]
    omega

theorem set_append_cons (A B : List Char) (b c : Char) :
    (A ++ b :: B).set A.length c = A ++ c :: B := by
  rw [List.set_append]
  simp

/-- Writing `cs` (at most `k` characters) at the start of the all-space tail
of a buffer yields the written prefix followed by the remaining spaces. -/
theorem placeChars_spaces (cs : List Char) (k : Nat) (A : List Char) (m : Nat)
    (h : min k cs.length ≤ m) :
    placeChars (A ++ List.replicate m ' ') A.length k cs
      = A ++ cs.take (min k cs.length) ++ List.replicate (m - min k cs.length) ' ' := by
  induction cs generalizing k A m with
  | nil => cases k <;> simp [placeChars]
  | cons c cs ih =>
    cases k with
    | zero => simp [placeChars]
    | succ k =>
      have hmin : min (k + 1) (cs.length + 1) = min k cs.length + 1 := by
        omega
      rw [List.length_cons, hmin] at h ⊢
      obtain ⟨m2, rfl⟩ : ∃ m2, m = m2 + 1 := ⟨m - 1, by omega⟩
      have hrep : List.replicate (m2 + 1) ' ' = ' ' :: List.replicate m2 ' ' := rfl
      rw [hrep, placeChars, set_append_cons]
      have hA : A ++ c :: List.replicate m2 ' ' = (A ++ [c]) ++ List.replicate m2 ' ' := by
        simp
      have hlen : A.length + 1 = (A ++ [c]).length := by simp
      rw [hA, hlen, ih k (A ++ [c]) m2 (by omega)]
      simp [List.take_succ_cons]

theorem placeChars_spaces_start (cs : List Char) (k : Nat) (A : List Char) (m : Nat)
    (h : min k cs.length ≤ m) (p : Nat) (hp : p = A.length) :
    placeChars (A ++ List.replicate m ' ') p k cs
      = A ++ cs.take k ++ List.replicate (m - min k cs.length) ' ' := by
  subst hp
  rw [placeChars_spaces cs k A m h, take_min_length]

theorem length_padStr (s : String) (n : Nat) : (padStr s n).length = n := by
  simp [padStr]
  omega

theorem length_fieldPad (g : JSVal → Bool) (v : JSVal) (n : Nat) :
    (fieldPad g v n).length = n := by
  unfold fieldPad
  split
  · exact length_padStr _ n
  · simp

theorem toStr?_of_stringifiable (v : JSVal) (h : v.stringifiable = true) :
    ∃ s, v.toStr? = some s := by
  cases v <;> simp_all [JSVal.stringifiable, JSVal.toStr?]

theorem stringifiable_of_toStr? (v : JSVal) (s : String) (h : v.toStr? = some s) :
    v.stringifiable = true := by
  cases v <;> simp_all [JSVal.stringifiable, JSVal.toStr?]

/-- Normal form of one guarded field write onto the all-space tail of the
buffer: the field's byte range becomes its padded image, everything else is
untouched. -/
theorem writeField_spaces (g : JSVal → Bool) (f : EField) (A : List Char) (m : Nat)
    (hok : okForGuard g f.value = true) (hp : f.pos = A.length + 1)
    (hn : f.len ≤ m) :
    writeField g (A ++ List.replicate m ' ') f
      = some (A ++ fieldPad g f.value f.len ++ List.replicate (m - f.len) ' ') := by
  unfold writeField fieldPad
  rcases hg : g f.value with _ | _
  · simp only [Bool.false_eq_true, if_false]
    have : f.len + (m - f.len) = m := by omega
    rw [← this, List.replicate_add]
    simp
  · have hs : f.value.stringifiable = true := by
      unfold okForGuard at hok
      simp [hg] at hok
      exact hok
    obtain ⟨s, hsome⟩ := toStr?_of_stringifiable f.value hs
    simp only [if_true, hsome, Option.getD_some]
    have hp1 : f.pos - 1 = A.length := by omega
    rw [hp1, placeChars_spaces s.data f.len A m (by omega)]
    unfold padStr
    rw [take_min_length]
    have hrepl : m - min f.len s.data.length
        = (f.len - s.data.length) + (m - f.len) := by omega
    rw [hrepl, List.replicate_add]
    simp

/-- The fields of a record instance are laid out contiguously from 1-based
position `p`. -/
def fieldsStartAt : Nat → List NamedField → Prop
  | _, [] => True
  | p, (_, f) :: fs => f.pos = p ∧ fieldsStartAt (p + f.len) fs

/-- Total declared byte length of a record instance. -/
def sumLens (fs : List NamedField) : Nat :=
  (fs.map (fun nf => nf.2.len)).sum

/-- The byte image of a whole contiguous record: each field's padded image,
concatenated. -/
def padsOf (g : JSVal → Bool) (fs : List NamedField) : List Char :=
  (fs.map (fun nf => fieldPad g nf.2.value nf.2.len)).flatten

theorem sumLens_cons (nm : String) (f : EField) (fs : List NamedField) :
    sumLens ((nm, f) :: fs) = f.len + sumLens fs := by
  simp [sumLens]

/-- Taking exactly the length of the left part of an append returns it. -/
theorem take_append_left_len (X Y : List Char) (n : Nat) (h : X.length = n) :
    (X ++ Y).take n = X := by
  subst h
  exact List.take_left X Y

/-- The slice of an append at the middle part's exact offset and length is
that middle part. -/
theorem slice_of_mid (A X Y : List Char) (a n : Nat)
    (ha : a = A.length) (hn : X.length = n) :
    subSlice (A ++ X ++ Y) a n = X := by
  subst ha
  unfold subSlice
  rw [List.append_assoc, List.drop_left]
  exact take_append_left_len X Y n hn

theorem length_padsOf (g : JSVal → Bool) (fs : List NamedField) :
    (padsOf g fs).length = sumLens fs := by
  induction fs with
  | nil => rfl
  | cons nf fs ih =>
    simp [padsOf, sumLens, length_fieldPad] at *
    omega

/-- Normal form of encoding a contiguous record onto the all-space tail of a
buffer: the result is the prefix, the concatenated field images, and the
remaining spaces. -/
theorem encodeFields_contig (g : JSVal → Bool) (fs : List NamedField)
    (A : List Char) (m : Nat)
    (hok : ∀ nf ∈ fs, okForGuard g nf.2.value = true)
    (hc : fieldsStartAt (A.length + 1) fs)
    (hm : sumLens fs ≤ m) :
    encodeFields g fs (A ++ List.replicate m ' ')
      = some (A ++ padsOf g fs ++ List.replicate (m - sumLens fs) ' ') := by
  induction fs generalizing A m with
  | nil => simp [encodeFields, padsOf, sumLens]
  | cons nf fs ih =>
    obtain ⟨nm, f⟩ := nf
    obtain ⟨hpos, hrest⟩ := hc
    rw [sumLens_cons] at hm
    have hlen : f.len ≤ m := by omega
    have hwf := writeField_spaces g f A m (hok (nm, f) (by simp)) hpos hlen
    have hstep : encodeFields g ((nm, f) :: fs) (A ++ List.replicate m ' ')
        = encodeFields g fs ((A ++ fieldPad g f.value f.len)
            ++ List.replicate (m - f.len) ' ') := by
      simp only [encodeFields]
      rw [hwf]
    have hlen2 : (A ++ fieldPad g f.value f.len).length = A.length + f.len := by
      simp [length_fieldPad]
    have hc2 : fieldsStartAt ((A ++ fieldPad g f.value f.len).length + 1) fs := by
      rw [hlen2]
      have : A.length + f.len + 1 = A.length + 1 + f.len := by omega
      rw [this]
      exact hrest
    rw [hstep, ih (A ++ fieldPad g f.value f.len) (m - f.len)
      (fun x hx => hok x (by simp [hx])) hc2 (by omega)]
    have hpads : padsOf g ((nm, f) :: fs)
        = fieldPad g f.value f.len ++ padsOf g fs := by
      simp [padsOf]
    rw [hpads, sumLens_cons]
    have : m - f.len - sumLens fs = m - (f.len + sumLens fs) := by omega
    rw [this]
    simp

/-- A contiguous layout binds to a contiguous record instance, for any
value list. -/
theorem fieldsStartAt_bindLayout (layout : List (String × Nat × Nat))
    (vals : List JSVal) (p : Nat) (hc : contigFromB p layout = true) :
    fieldsStartAt p (bindLayout layout vals) := by
  induction layout generalizing vals p with
  | nil => cases vals <;> simp [bindLayout, fieldsStartAt]
  | cons nf layout ih =>
    cases vals with
    | nil => simp [bindLayout, fieldsStartAt]
    | cons v vals =>
      obtain ⟨nm, q, l⟩ := nf
      simp [contigFromB] at hc
      obtain ⟨hq, hrest⟩ := hc
      subst hq
      exact ⟨rfl, ih vals (q + l) hrest⟩

theorem sumLens_bindLayout_le (layout : List (String × Nat × Nat))
    (vals : List JSVal) :
    sumLens (bindLayout layout vals) ≤ layoutSum layout := by
  induction layout generalizing vals with
  | nil => simp [bindLayout, sumLens, layoutSum]
  | cons nf layout ih =>
    cases vals with
    | nil => simp [bindLayout, sumLens, layoutSum]
    | cons v vals =>
      have := ih vals
      simp [bindLayout, sumLens, layoutSum] at *
      omega

theorem bindLayout_str_stringifiable (layout : List (String × Nat × Nat))
    (vals : List String) :
    ∀ nf ∈ bindLayout layout (vals.map JSVal.str), nf.2.value.stringifiable = true := by
  induction layout generalizing vals with
  | nil => simp [bindLayout]
  | cons h layout ih =>
    cases vals with
    | nil => simp [bindLayout]
    | cons v vals =>
      intro nf hnf
      simp only [List.map_cons, bindLayout, List.zipWith_cons_cons, List.mem_cons] at hnf
      rcases hnf with rfl | hnf
      · rfl
      · exact ih vals nf hnf

theorem okForGuard_of_stringifiable (g : JSVal → Bool) (v : JSVal)
    (h : v.stringifiable = true) : okForGuard g v = true := by
  simp [okForGuard, h]

/-- The guard of both encoders lets every non-empty string value through. -/
theorem fieldPad_str (g : JSVal → Bool)
    (hgs : ∀ t : String, t ≠ "" → g (.str t) = true) (s : String) (n : Nat) :
    fieldPad g (.str s) n = padStr s n := by
  by_cases hs : s = ""
  · subst hs
    unfold fieldPad padStr
    split <;> simp [JSVal.toStr?]
  · simp [fieldPad, hgs s hs, JSVal.toStr?]

/-- Slice theorem: encoding a contiguous layout bound to string values puts,
in the byte range of the `k`-th field, exactly the first `len` characters of
the `k`-th value padded on the right with spaces. -/
theorem bindLayout_slice (g : JSVal → Bool)
    (hgs : ∀ t : String, t ≠ "" → g (.str t) = true)
    (layout : List (String × Nat × Nat)) (vals : List String) (k : Nat)
    (hk : k < layout.length) (hkv : k < vals.length) (A : List Char) (m : Nat)
    (hc : contigFromB (A.length + 1) layout = true)
    (hm : layoutSum layout ≤ m) :
    ∃ L, encodeFields g (bindLayout layout (vals.map JSVal.str))
        (A ++ List.replicate m ' ') = some L ∧
      subSlice L ((layout.getD k ("", 0, 0)).2.1 - 1) ((layout.getD k ("", 0, 0)).2.2)
        = padStr (vals.getD k "") ((layout.getD k ("", 0, 0)).2.2) := by
  induction layout generalizing vals k A m with
  | nil => exact absurd hk (by simp)
  | cons nf layout ih =>
    obtain ⟨nm, q, l⟩ := nf
    cases vals with
    | nil => exact absurd hkv (by simp)
    | cons v vals =>
      simp only [contigFromB, Bool.and_eq_true, beq_iff_eq] at hc
      obtain ⟨hq, hrest⟩ := hc
      have hlsum : layoutSum ((nm, q, l) :: layout) = l + layoutSum layout := by
        simp [layoutSum]
      rw [hlsum] at hm
      have hok1 : okForGuard g (JSVal.str v) = true :=
        okForGuard_of_stringifiable g _ rfl
      have hwf : writeField g (A ++ List.replicate m ' ') (EField.mk (.str v) q l)
          = some (A ++ fieldPad g (.str v) l ++ List.replicate (m - l) ' ') :=
        writeField_spaces g (EField.mk (.str v) q l) A m hok1 hq
          (by show l ≤ m; omega)
      have hstep : encodeFields g (bindLayout ((nm, q, l) :: layout)
            ((v :: vals).map JSVal.str)) (A ++ List.replicate m ' ')
          = encodeFields g (bindLayout layout (vals.map JSVal.str))
            ((A ++ fieldPad g (.str v) l) ++ List.replicate (m - l) ' ') := by
        simp only [List.map_cons, bindLayout, List.zipWith_cons_cons, encodeFields]
        rw [hwf]
      have hA2len : (A ++ fieldPad g (.str v) l).length = A.length + l := by
        simp [length_fieldPad]
      cases k with
      | zero =>
        have hcrest : fieldsStartAt ((A ++ fieldPad g (.str v) l).length + 1)
            (bindLayout layout (vals.map JSVal.str)) := by
          rw [hA2len]
          have : A.length + l + 1 = q + l := by omega
          rw [this]
          exact fieldsStartAt_bindLayout layout _ (q + l) hrest
        have hsum2 : sumLens (bindLayout layout (vals.map JSVal.str)) ≤ m - l := by
          have := sumLens_bindLayout_le layout (vals.map JSVal.str)
          omega
        have hfin : encodeFields g (bindLayout layout (vals.map JSVal.str))
            ((A ++ fieldPad g (.str v) l) ++ List.replicate (m - l) ' ')
            = some ((A ++ fieldPad g (.str v) l)
                ++ padsOf g (bindLayout layout (vals.map JSVal.str))
                ++ List.replicate ((m - l) - sumLens (bindLayout layout (vals.map JSVal.str))) ' ') :=
          encodeFields_contig g _ _ _
            (fun nf hnf => okForGuard_of_stringifiable g _
              (bindLayout_str_stringifiable layout vals nf hnf))
            hcrest hsum2
        have hstep2 : encodeFields g (bindLayout ((nm, q, l) :: layout)
              ((v :: vals).map JSVal.str)) (A ++ List.replicate m ' ')
            = some (A ++ fieldPad g (.str v) l
                ++ (padsOf g (bindLayout layout (vals.map JSVal.str))
                  ++ List.replicate ((m - l) - sumLens (bindLayout layout (vals.map JSVal.str))) ' ')) := by
          rw [hstep, hfin]
          simp [List.append_assoc]
        refine ⟨_, hstep2, ?_⟩
        simp only [List.getD_cons_zero]
        rw [slice_of_mid A (fieldPad g (.str v) l) _ _ _ (by omega)
          (length_fieldPad g _ l)]
        exact fieldPad_str g hgs v l
      | succ k =>
        have hk2 : k < layout.length := by simpa using hk
        have hkv2 : k < vals.length := by simpa using hkv
        have hc2 : contigFromB ((A ++ fieldPad g (.str v) l).length + 1) layout = true := by
          rw [hA2len]
          have : A.length + l + 1 = q + l := by omega
          rw [this]
          exact hrest
        obtain ⟨L, hL, hslice⟩ := ih vals k hk2 hkv2
          (A ++ fieldPad g (.str v) l) (m - l) hc2 (by omega)
        exact ⟨L, hstep.trans hL, by simpa using hslice⟩

/-- Encoding never throws and never changes the line length when every
guarded value is stringifiable. -/
theorem encodeFields_some_length (g : JSVal → Bool) (fs : List NamedField)
    (line : List Char) (hok : ∀ nf ∈ fs, okForGuard g nf.2.value = true) :
    ∃ l, encodeFields g fs line = some l ∧ l.length = line.length := by
  induction fs generalizing line with
  | nil => exact ⟨line, rfl, rfl⟩
  | cons nf fs ih =>
    obtain ⟨nm, f⟩ := nf
    rcases hg : g f.value with _ | _
    · have hwf : writeField g line f = some line := by
        simp [writeField, hg]
      obtain ⟨l, hl, hlen⟩ := ih line (fun x hx => hok x (by simp [hx]))
      exact ⟨l, by simp only [encodeFields]; rw [hwf]; exact hl, hlen⟩
    · have hs : f.value.stringifiable = true := by
        have := hok (nm, f) (by simp)
        simp [okForGuard, hg] at this
        exact this
      obtain ⟨s, hsome⟩ := toStr?_of_stringifiable f.value hs
      have hwf : writeField g line f
          = some (placeChars line (f.pos - 1) f.len s.data) := by
        simp [writeField, hg, hsome]
      obtain ⟨l, hl, hlen⟩ := ih (placeChars line (f.pos - 1) f.len s.data)
        (fun x hx => hok x (by simp [hx]))
      refine ⟨l, by simp only [encodeFields]; rw [hwf]; exact hl, ?_⟩
      rw [hlen, placeChars_length]

theorem truthy_str_of_ne (t : String) (ht : t ≠ "") : JSVal.truthy (.str t) = true := by
  simp [JSVal.truthy, ht]

theorem defined_str (t : String) : JSVal.defined (.str t) = true := rfl

/-! ## Claim theorems -/

/-- Claim C1: for every record instance (string-valued fields, including
over-long and empty values), the customer encoder emits a line of exactly 758
characters and the job/WIP encoder a line of exactly 560 characters, 561
("560+1") counting its newline terminator. -/
theorem spec_C1 (entries : List NamedField)
    (hstr : ∀ nf ∈ entries, nf.2.value.stringifiable = true) :
    (∃ l, generateCustomerLine entries = some l ∧ l.length = 758) ∧
    (∃ l, generateJobLine entries = some l ∧ l.length = 560 ∧
      (String.mk l ++ "\n").length = 561) ∧
    (∃ l, generateWIPLine entries = some l ∧ l.length = 560 ∧
      (String.mk l ++ "\n").length = 561) := by
  refine ⟨?_, ?_, ?_⟩
  · obtain ⟨l, hl, hlen⟩ := encodeFields_some_length JSVal.defined entries
      (List.replicate 758 ' ')
      (fun nf hnf => okForGuard_of_stringifiable _ _ (hstr nf hnf))
    exact ⟨l, hl, by rw [List.length_replicate] at hlen; exact hlen⟩
  · obtain ⟨l, hl, hlen⟩ := encodeFields_some_length JSVal.truthy entries
      (List.replicate 560 ' ')
      (fun nf hnf => okForGuard_of_stringifiable _ _ (hstr nf hnf))
    rw [List.length_replicate] at hlen
    refine ⟨l, hl, hlen, ?_⟩
    rw [String.length_append]
    have h1 : (String.mk l).length = l.length := rfl
    have h2 : ("\n" : String).length = 1 := rfl
    rw [h1, h2]
    omega
  · obtain ⟨l, hl, hlen⟩ := encodeFields_some_length JSVal.truthy
      (entries.filter (fun nf => nf.fst != "_metadata")) (List.replicate 560 ' ')
      (fun nf hnf => okForGuard_of_stringifiable _ _
        (hstr nf (List.mem_of_mem_filter hnf)))
    rw [List.length_replicate] at hlen
    refine ⟨l, hl, hlen, ?_⟩
    rw [String.length_append]
    have h1 : (String.mk l).length = l.length := rfl
    have h2 : ("\n" : String).length = 1 := rfl
    rw [h1, h2]
    omega

/-- Witness for C1 at a concrete record instance with an empty and an
over-long value. -/
theorem spec_C1_witness :
    (∀ nf ∈ sampleEntries1, nf.2.value.stringifiable = true) ∧
    ((∃ l, generateCustomerLine sampleEntries1 = some l ∧ l.length = 758) ∧
     (∃ l, generateJobLine sampleEntries1 = some l ∧ l.length = 560 ∧
       (String.mk l ++ "\n").length = 561) ∧
     (∃ l, generateWIPLine sampleEntries1 = some l ∧ l.length = 560 ∧
       (String.mk l ++ "\n").length = 561)) :=
  ⟨by decide, spec_C1 sampleEntries1 (by decide)⟩

/-- Claim C2: in the encoded line, the byte range `[pos-1, pos-1+len)` of each
field of the job layout and of the customer layout holds exactly the first
`len` characters of the field's bound value, right-padded with spaces; and
encoding is deterministic (re-encoding the same record instance yields the
identical output). -/
theorem spec_C2 :
    (∀ (vals : List String) (k : Nat), k < jobLayout.length → k < vals.length →
      ∃ l, generateJobLine (bindLayout jobLayout (vals.map JSVal.str)) = some l ∧
        subSlice l ((jobLayout.getD k ("", 0, 0)).2.1 - 1)
            ((jobLayout.getD k ("", 0, 0)).2.2)
          = padStr (vals.getD k "") ((jobLayout.getD k ("", 0, 0)).2.2)) ∧
    (∀ (vals : List String) (k : Nat), k < customerLayout.length → k < vals.length →
      ∃ l, generateCustomerLine (bindLayout customerLayout (vals.map JSVal.str)) = some l ∧
        subSlice l ((customerLayout.getD k ("", 0, 0)).2.1 - 1)
            ((customerLayout.getD k ("", 0, 0)).2.2)
          = padStr (vals.getD k "") ((customerLayout.getD k ("", 0, 0)).2.2)) ∧
    (∀ entries, generateJobLine entries = generateJobLine entries ∧
      generateCustomerLine entries = generateCustomerLine entries ∧
      generateWIPLine entries = generateWIPLine entries) := by
  refine ⟨?_, ?_, fun entries => ⟨rfl, rfl, rfl⟩⟩
  · intro vals k hk hkv
    exact bindLayout_slice JSVal.truthy truthy_str_of_ne jobLayout vals k hk hkv
      [] 560 (by decide) (by decide)
  · intro vals k hk hkv
    exact bindLayout_slice JSVal.defined (fun t _ => defined_str t) customerLayout
      vals k hk hkv [] 758 (by decide) (by decide)

/-- Witness for C2 at the `cust_ordered_by` field (index 5, bytes 301..308) of
a concrete job record instance. -/
theorem spec_C2_witness :
    ((5 : Nat) < jobLayout.length ∧ (5 : Nat) < sampleJobVals.length) ∧
    (∃ l, generateJobLine (bindLayout jobLayout (sampleJobVals.map JSVal.str)) = some l ∧
      subSlice l ((jobLayout.getD 5 ("", 0, 0)).2.1 - 1)
          ((jobLayout.getD 5 ("", 0, 0)).2.2)
        = padStr (sampleJobVals.getD 5 "") ((jobLayout.getD 5 ("", 0, 0)).2.2)) :=
  ⟨⟨by decide, by decide⟩, spec_C2.1 sampleJobVals 5 (by decide) (by decide)⟩

/-- Claim C10: both layouts are contiguous (each field starts where the
previous one ends) and pairwise non-overlapping; the job/WIP layout covers
bytes 1..560 exactly (ending with forest_type_id at 546+15-1 = 560), the
customer layout covers bytes 1..757 (ending with PointOfTitleTransfer at
747+11-1 = 757), and byte 758 of every encoded customer line is a space. -/
theorem spec_C10 :
    contigFromB 1 jobLayout = true ∧ layoutSum jobLayout = 560 ∧
    layoutPairwiseDisjointB jobLayout = true ∧
    jobLayout.getD 21 ("", 0, 0) = ("forest_type_id", 546, 15) ∧
    contigFromB 1 customerLayout = true ∧ layoutSum customerLayout = 757 ∧
    layoutPairwiseDisjointB customerLayout = true ∧
    customerLayout.getD 55 ("", 0, 0) = ("PointOfTitleTransfer", 747, 11) ∧
    (∀ vals : List String,
      ∃ l, generateCustomerLine (bindLayout customerLayout (vals.map JSVal.str))
          = some l ∧ l[757]? = some ' ') := by
  refine ⟨by decide, by decide, by decide, by decide, by decide, by decide,
    by decide, by decide, ?_⟩
  intro vals
  have hok : ∀ nf ∈ bindLayout customerLayout (vals.map JSVal.str),
      okForGuard JSVal.defined nf.2.value = true :=
    fun nf hnf => okForGuard_of_stringifiable _ _
      (bindLayout_str_stringifiable customerLayout vals nf hnf)
  have hc : fieldsStartAt (([] : List Char).length + 1)
      (bindLayout customerLayout (vals.map JSVal.str)) :=
    fieldsStartAt_bindLayout customerLayout _ 1 (by decide)
  have hsum : sumLens (bindLayout customerLayout (vals.map JSVal.str)) ≤ 757 := by
    have h1 := sumLens_bindLayout_le customerLayout (vals.map JSVal.str)
    have h2 : layoutSum customerLayout = 757 := by decide
    omega
  have henc := encodeFields_contig JSVal.defined
    (bindLayout customerLayout (vals.map JSVal.str)) [] 758 hok hc (by omega)
  refine ⟨_, henc, ?_⟩
  rw [List.nil_append, List.getElem?_append_right
    (by rw [length_padsOf]; omega)]
  rw [length_padsOf, List.getElem?_replicate]
  have : 757 - sumLens (bindLayout customerLayout (vals.map JSVal.str))
      < 758 - sumLens (bindLayout customerLayout (vals.map JSVal.str)) := by
    omega
  simp [this]

/-! ## The WIP order-id gate (claim C5) -/

/-- The falsy short-circuit of `isValidOrderId` coincides with the pattern
test on the trimmed id: an empty id fails `/^\d{4,7}$/` anyway. -/
theorem isValidOrderId_eq_pattern (s : String) :
    isValidOrderId s = matchesOrderIdPat (jsTrim s) := by
  by_cases h : s = ""
  · subst h
    decide
  · simp [isValidOrderId, h]

/-- Closed form of the filter loop: kept rows are exactly those with a valid
order id, and each invalid row (with its 0-based index) becomes one skipped
row. -/
theorem filterValidOrdersFrom_eq (rows : List WIPRow) (i : Nat) :
    filterValidOrdersFrom i rows
      = (rows.filter (fun r => isValidOrderId r.orderId),
         ((List.enumFrom i rows).filter
             (fun p => !isValidOrderId p.2.orderId)).map
           (fun p => mkSkippedRow p.1 p.2)) := by
  induction rows generalizing i with
  | nil => rfl
  | cons r rest ih =>
    rcases hv : isValidOrderId r.orderId with _ | _
    · simp [filterValidOrdersFrom, ih (i + 1), hv, List.filter_cons,
        List.enumFrom_cons]
    · simp [filterValidOrdersFrom, ih (i + 1), hv, List.filter_cons,
        List.enumFrom_cons]

/-- Claim C5: a WIP input row becomes a SkippedRow exactly when its trimmed
order id fails `/^\d{4,7}$/`; rows that fail the gate are never in
`filteredData`, the only list handed to the customer resolver, and rows that
pass are. -/
theorem spec_C5 (rows : List WIPRow) :
    ((filterValidOrders rows).1
      = rows.filter (fun r => isValidOrderId r.orderId)) ∧
    ((filterValidOrders rows).2
      = ((rows.enumFrom 0).filter (fun p => !isValidOrderId p.2.orderId)).map
          (fun p => mkSkippedRow p.1 p.2)) ∧
    (∀ s, isValidOrderId s = matchesOrderIdPat (jsTrim s)) ∧
    (∀ r ∈ rows, matchesOrderIdPat (jsTrim r.orderId) = false →
      r ∉ (filterValidOrders rows).1) ∧
    (∀ r ∈ rows, matchesOrderIdPat (jsTrim r.orderId) = true →
      r ∈ (filterValidOrders rows).1) := by
  have hchar := filterValidOrdersFrom_eq rows 0
  refine ⟨by rw [filterValidOrders, hchar], by rw [filterValidOrders, hchar],
    isValidOrderId_eq_pattern, ?_, ?_⟩
  · intro r hr hbad hmem
    rw [filterValidOrders, hchar] at hmem
    simp only [List.mem_filter] at hmem
    rw [isValidOrderId_eq_pattern] at hmem
    rw [hbad] at hmem
    exact absurd hmem.2 (by simp)
  · intro r hr hgood
    rw [filterValidOrders, hchar]
    simp only [List.mem_filter]
    rw [isValidOrderId_eq_pattern, hgood]
    exact ⟨hr, rfl⟩

/-- Witness for C5: the row with order id "ABC12" fails the gate and is not
passed on; the row with order id "12345" passes. -/
theorem spec_C5_witness :
    (badWIPRow ∈ [sampleWIPRow, badWIPRow] ∧
      matchesOrderIdPat (jsTrim badWIPRow.orderId) = false ∧
      matchesOrderIdPat (jsTrim sampleWIPRow.orderId) = true) ∧
    (badWIPRow ∉ (filterValidOrders [sampleWIPRow, badWIPRow]).1 ∧
      sampleWIPRow ∈ (filterValidOrders [sampleWIPRow, badWIPRow]).1) :=
  ⟨⟨by decide, by decide, by decide⟩,
   ⟨(spec_C5 [sampleWIPRow, badWIPRow]).2.2.2.1 badWIPRow (by decide) (by decide),
    (spec_C5 [sampleWIPRow, badWIPRow]).2.2.2.2 sampleWIPRow (by decide) (by decide)⟩⟩

/-! ## Job-id derivation (claim C7) -/

theorem fieldVal_mkJobRecord_jobId (a b c d e f g h i j k l : String) :
    fieldVal (mkJobRecord a b c d e f g h i j k l) "job_id" = some (.str a) := rfl

theorem fieldVal_mkWIPJobRecord_jobId (a b c d e f : String) :
    fieldVal (mkWIPJobRecord a b c d e f) "job_id" = some (.str a) := rfl

/-- Every sub-job produced for a group carries the group's job id and
customer id. -/
theorem buildSubJobs_mem_ids (ops : JsOps) (jobId custId po due ship contact : String)
    (i : Nat) (os : List OrderRow) :
    ∀ j ∈ buildSubJobs ops jobId custId po due ship contact i os,
      fieldVal j "job_id" = some (.str jobId) ∧
      fieldVal j "cust_ordered_by" = some (.str custId) ∧
      fieldVal j "cust_billed_to" = some (.str custId) := by
  induction os generalizing i with
  | nil => simp [buildSubJobs]
  | cons o os ih =>
    intro j hj
    simp only [buildSubJobs, List.mem_cons] at hj
    rcases hj with rfl | hj
    · exact ⟨rfl, rfl, rfl⟩
    · exact ih (i + 1) j hj

/-- Claim C7 counterexample: the code derives the order-path job id by
right-padding the invoice with spaces (then blanking leading zeros), not by
left-padding with zeros as the claim describes; on invoice "520" the claim's
own derivation rule gives "     520" while the code (and the claim's own
example) gives "520     ". -/
theorem counterexample_C7 :
    monarchJobId "520" = "520     " ∧
    specOrderJobIdRule "520" = "     520" ∧
    ¬ (monarchJobId "520" = specOrderJobIdRule "520") := by
  refine ⟨by decide, by decide, by decide⟩

/-- Claim C7 (amended): in the order path the job id is the invoice number
right-padded with spaces to 8 characters (truncated to 8) with any leading
zeros then replaced by an equal number of spaces, so invoice "520" yields
"520     "; in the WIP path the job id is the order id prefixed with literal
"N" then space-padded to 8 characters; the two derivation rules are distinct
and each mapping path uses its own. -/
theorem spec_C7 :
    (∀ (ops : JsOps) (lookup : String → LookupOutcome)
      (customerData : List CustomerRow) (inv : String) (o : OrderRow)
      (rest : List OrderRow) (cid : String),
      lookup o.customerName = .found cid →
      ∀ j ∈ (processGroup ops lookup customerData inv (o :: rest)).1
          ++ (processGroup ops lookup customerData inv (o :: rest)).2.1,
        fieldVal j "job_id" = some (.str (monarchJobId inv))) ∧
    monarchJobId "520" = "520     " ∧
    (∀ (ops : JsOps) (lookup : String → LookupOutcome) (row : WIPRow)
      (rest : List WIPRow) (cid : String),
      lookup row.customerName = .found cid →
      fieldVal ((wipMapToMonarch ops lookup (row :: rest)).1.getD 0 []) "job_id"
        = some (.str (wipJobId (jsTrim row.orderId)))) ∧
    wipJobId "12345" = "N12345  " ∧
    monarchJobId "12345" ≠ wipJobId "12345" := by
  refine ⟨?_, by decide, ?_, by decide, by decide⟩
  · intro ops lookup customerData inv o rest cid hfound j hj
    simp only [processGroup, hfound, List.append_nil] at hj
    rcases List.mem_append.mp hj with hj | hj
    · simp only [List.mem_singleton] at hj
      subst hj
      exact fieldVal_mkJobRecord_jobId _ _ _ _ _ _ _ _ _ _ _ _
    · exact (buildSubJobs_mem_ids ops (monarchJobId inv) _ _ _ _ _ 1 rest j hj).1
  · intro ops lookup row rest cid hfound
    simp only [wipMapToMonarch, hfound]
    exact fieldVal_mkWIPJobRecord_jobId _ _ _ _ _ _

/-- Witness for C7 at a concrete WIP row whose customer lookup succeeds. -/
theorem spec_C7_witness :
    lookupHit sampleWIPRow.customerName = .found "MONCUST99" ∧
    fieldVal ((wipMapToMonarch sampleOps lookupHit [sampleWIPRow]).1.getD 0 []) "job_id"
      = some (.str (wipJobId (jsTrim sampleWIPRow.orderId))) :=
  ⟨rfl, spec_C7.2.2.1 sampleOps lookupHit sampleWIPRow [] "MONCUST99" rfl⟩

/-! ## Write-guard asymmetry of the encoders (claim C6) -/

theorem defined_of_stringifiable (v : JSVal) (h : v.stringifiable = true) :
    v.defined = true := by
  cases v <;> simp_all [JSVal.stringifiable, JSVal.defined]

/-- Claim C6 counterexample: a field bound to `null` is not `undefined`, yet
the customer encoder does not write it into the line — the `toString` call
throws (modelled by `none`), so no line is produced at all. -/
theorem counterexample_C6 :
    JSVal.defined .nullv = true ∧
    generateCustomerLine [("Cust-name", EField.mk .nullv 9 40)] = none := by
  exact ⟨rfl, rfl⟩

/-- Claim C6 (amended): the customer encoder writes any field whose value is
not undefined and stringifiable — in particular the number zero is written as
"0" — while a null value aborts encoding with an error; the job/WIP encoder
writes a field only when its value is truthy, so a field bound to the empty
string, the number zero, or null leaves its byte range (indeed the whole
line) as spaces, whereas the non-empty string "0" is written. -/
theorem spec_C6 :
    (∀ (nm : String) (f : EField),
      f.value = .str "" ∨ f.value = .num 0 ∨ f.value = .nullv →
      generateJobLine [(nm, f)] = some (List.replicate 560 ' ') ∧
      generateWIPLine [(nm, f)] = some (List.replicate 560 ' ')) ∧
    (∀ (nm : String) (p len : Nat), 1 ≤ p → p - 1 + len ≤ 560 →
      ∃ l, generateJobLine [(nm, EField.mk (.str "0") p len)] = some l ∧
        subSlice l (p - 1) len = padStr "0" len) ∧
    (∀ (nm : String) (p len : Nat) (v : JSVal) (s : String),
      v.toStr? = some s → 1 ≤ p → p - 1 + len ≤ 758 →
      ∃ l, generateCustomerLine [(nm, EField.mk v p len)] = some l ∧
        subSlice l (p - 1) len = padStr s len) ∧
    (∀ nm p len, generateCustomerLine [(nm, EField.mk .nullv p len)] = none) ∧
    (∀ v, JSVal.defined v = true ↔ v ≠ .undef) ∧
    (∀ s, JSVal.truthy (.str s) = true ↔ s ≠ "") ∧
    JSVal.truthy (.num 0) = false ∧ JSVal.truthy .nullv = false := by
  refine ⟨?_, ?_, ?_, ?_, ?_, ?_, rfl, rfl⟩
  · intro nm f hv
    have ht : f.value.truthy = false := by
      rcases hv with h | h | h <;> simp [h, JSVal.truthy]
    have hwfj : writeField JSVal.truthy (List.replicate 560 ' ') f
        = some (List.replicate 560 ' ') := by
      unfold writeField
      rw [ht]
      rfl
    constructor
    · rw [generateJobLine]
      simp only [encodeFields]
      rw [hwfj]
    · rcases hnm : nm != "_metadata" with _ | _
      · have hfil : List.filter (fun nf => nf.fst != "_metadata") [(nm, f)] = [] := by
          simp [List.filter_cons, hnm]
        rw [generateWIPLine, hfil]
        rfl
      · have hfil : List.filter (fun nf => nf.fst != "_metadata") [(nm, f)]
            = [(nm, f)] := by
          simp [List.filter_cons, hnm]
        rw [generateWIPLine, hfil]
        simp only [encodeFields]
        rw [hwfj]
  · intro nm p len hp hlen
    have hsplit : (560 : Nat) = (p - 1) + (560 - (p - 1)) := by omega
    have hbuf : List.replicate 560 ' '
        = List.replicate (p - 1) ' ' ++ List.replicate (560 - (p - 1)) ' ' := by
      rw [← List.replicate_add, ← hsplit]
    have hA : (List.replicate (p - 1) ' ').length = p - 1 := List.length_replicate _ _
    have hwf := writeField_spaces JSVal.truthy (EField.mk (.str "0") p len)
      (List.replicate (p - 1) ' ') (560 - (p - 1))
      (okForGuard_of_stringifiable _ _ rfl)
      (by show p = (List.replicate (p - 1) ' ').length + 1; rw [hA]; omega)
      (by show len ≤ 560 - (p - 1); omega)
    refine ⟨List.replicate (p - 1) ' ' ++ fieldPad JSVal.truthy (.str "0") len
      ++ List.replicate (560 - (p - 1) - len) ' ', ?_, ?_⟩
    · rw [generateJobLine, hbuf]
      simp only [encodeFields]
      rw [hwf]
    · rw [slice_of_mid _ _ _ _ _ (by rw [hA]) (length_fieldPad _ _ len)]
      exact fieldPad_str JSVal.truthy truthy_str_of_ne "0" len
  · intro nm p len v s hs hp hlen
    have hstrv : v.stringifiable = true := stringifiable_of_toStr? v s hs
    have hsplit : (758 : Nat) = (p - 1) + (758 - (p - 1)) := by omega
    have hbuf : List.replicate 758 ' '
        = List.replicate (p - 1) ' ' ++ List.replicate (758 - (p - 1)) ' ' := by
      rw [← List.replicate_add, ← hsplit]
    have hA : (List.replicate (p - 1) ' ').length = p - 1 := List.length_replicate _ _
    have hwf := writeField_spaces JSVal.defined (EField.mk v p len)
      (List.replicate (p - 1) ' ') (758 - (p - 1))
      (okForGuard_of_stringifiable _ _ hstrv)
      (by show p = (List.replicate (p - 1) ' ').length + 1; rw [hA]; omega)
      (by show len ≤ 758 - (p - 1); omega)
    refine ⟨List.replicate (p - 1) ' ' ++ fieldPad JSVal.defined v len
      ++ List.replicate (758 - (p - 1) - len) ' ', ?_, ?_⟩
    · rw [generateCustomerLine, hbuf]
      simp only [encodeFields]
      rw [hwf]
    · rw [slice_of_mid _ _ _ _ _ (by rw [hA]) (length_fieldPad _ _ len)]
      have hdef : JSVal.defined v = true := defined_of_stringifiable v hstrv
      rw [fieldPad, if_pos hdef, hs]
      rfl
  · intro nm p len
    rfl
  · intro v
    cases v <;> simp [JSVal.defined]
  · intro s
    simp [JSVal.truthy]

/-- Witness for C6: at the customer layout's PO-Required byte (pos 486,
len 1) the number zero is written as "0" by the customer encoder. -/
theorem spec_C6_witness :
    (JSVal.num 0).toStr? = some "0" ∧ (1 : Nat) ≤ 486 ∧ 486 - 1 + 1 ≤ 758 ∧
    (∃ l, generateCustomerLine [("PO-Required", EField.mk (.num 0) 486 1)] = some l ∧
      subSlice l (486 - 1) 1 = padStr "0" 1) :=
  ⟨rfl, by decide, by decide,
   spec_C6.2.2.1 "PO-Required" 486 1 (.num 0) "0" rfl (by decide) (by decide)⟩

/-! ## Rejection report CSVs (claim C9) -/

theorem push_append_mk (cur : String) (c : Char) (cs : List Char) :
    (cur.push c) ++ String.mk cs = cur ++ String.mk (c :: cs) := by
  cases cur with
  | mk d =>
    show String.mk ((d ++ [c]) ++ cs) = String.mk (d ++ c :: cs)
    simp

theorem foldl_sep_init (sep : String) (rest : List String) :
    ∀ b a, rest.foldl (fun acc z => acc ++ sep ++ z) (a ++ b)
      = a ++ rest.foldl (fun acc z => acc ++ sep ++ z) b := by
  induction rest with
  | nil => intro b a; rfl
  | cons z rest ih =>
    intro b a
    simp only [List.foldl_cons]
    have h : a ++ b ++ sep ++ z = a ++ (b ++ sep ++ z) := by
      rw [String.append_assoc, String.append_assoc, String.append_assoc]
    rw [h, ih (b ++ sep ++ z) a]

theorem joinSep_cons2 (sep x y : String) (rest : List String) :
    joinSep sep (x :: y :: rest) = (x ++ sep) ++ joinSep sep (y :: rest) := by
  show (y :: rest).foldl (fun acc z => acc ++ sep ++ z) x = _
  simp only [List.foldl_cons]
  have h : x ++ sep ++ y = (x ++ sep) ++ y := rfl
  rw [h, foldl_sep_init sep rest y (x ++ sep)]
  rfl

theorem flatFields_eq (fields : List (String × Bool)) (hne : fields ≠ []) :
    (joinSep "," (fields.map renderCSVField)).data = flatFields fields := by
  induction fields with
  | nil => cases hne rfl
  | cons f fields ih =>
    cases fields with
    | nil => rfl
    | cons g rest =>
      simp only [List.map_cons]
      rw [show (joinSep "," (renderCSVField f :: renderCSVField g
          :: rest.map renderCSVField))
        = (renderCSVField f ++ ",") ++ joinSep ","
            (renderCSVField g :: rest.map renderCSVField)
        from joinSep_cons2 "," _ _ _]
      rw [String.data_append, String.data_append]
      have ihr := ih (by simp)
      simp only [List.map_cons] at ihr
      rw [ihr]
      show (renderCSVField f).data ++ [','] ++ flatFields (g :: rest)
        = flatFields (f :: g :: rest)
      simp [flatFields]

theorem csvSplit_open (rest : List Char) (cur : String) :
    csvSplitFields ('"' :: rest) false cur = csvSplitFields rest true cur := by
  simp [csvSplitFields]

theorem csvSplit_close (rest : List Char) (cur : String) :
    csvSplitFields ('"' :: rest) true cur = csvSplitFields rest false cur := by
  simp [csvSplitFields]

theorem csvSplit_step_comma (rest : List Char) (cur : String) :
    csvSplitFields (',' :: rest) false cur = cur :: csvSplitFields rest false "" := by
  simp [csvSplitFields]

theorem csvSplit_step_other (c : Char) (rest : List Char) (inQ : Bool) (cur : String)
    (h1 : ¬(c = '"')) (h2 : (c = ',' && !inQ) = false) :
    csvSplitFields (c :: rest) inQ cur = csvSplitFields rest inQ (cur.push c) := by
  simp [csvSplitFields, h1, h2]

theorem csvSplitFields_safe (cs : List Char)
    (h : ∀ c ∈ cs, ¬(c = ',') ∧ ¬(c = '"')) (rest : List Char) (cur : String) :
    csvSplitFields (cs ++ rest) false cur
      = csvSplitFields rest false (cur ++ String.mk cs) := by
  induction cs generalizing cur with
  | nil =>
    have hmk : cur ++ String.mk [] = cur := by
      cases cur with
      | mk d => show String.mk (d ++ []) = String.mk d; simp
    rw [List.nil_append, hmk]
  | cons c cs ih =>
    have hc := h c (by simp)
    rw [List.cons_append, csvSplit_step_other c _ false cur hc.2 (by simp [hc.1])]
    have hrec := ih (fun x hx => h x (by simp [hx])) (cur.push c)
    rw [push_append_mk] at hrec
    exact hrec

theorem csvSplitFields_doubled (cs : List Char) (rest : List Char) (cur : String) :
    ∃ cur2, csvSplitFields (doubleQuotes cs ++ rest) true cur
      = csvSplitFields rest true cur2 := by
  induction cs generalizing cur with
  | nil => exact ⟨cur, rfl⟩
  | cons c cs ih =>
    by_cases hc : c = '"'
    · subst hc
      have hd : doubleQuotes ('"' :: cs) = '"' :: '"' :: doubleQuotes cs := by
        simp [doubleQuotes]
      rw [hd, List.cons_append, List.cons_append, csvSplit_close, csvSplit_open]
      exact ih cur
    · have hd : doubleQuotes (c :: cs) = c :: doubleQuotes cs := by
        simp [doubleQuotes, hc]
      rw [hd, List.cons_append,
        csvSplit_step_other c _ true cur hc (by simp)]
      exact ih (cur.push c)

theorem csvSplitFields_escaped (s : String) (rest : List Char) (cur : String) :
    ∃ cur2, csvSplitFields ((csvEscapeAlways s).data ++ rest) false cur
      = csvSplitFields rest false cur2 := by
  have hdata : (csvEscapeAlways s).data = '"' :: (doubleQuotes s.data ++ ['"']) := by
    show (("\"" ++ String.mk (doubleQuotes s.data)) ++ "\"").data = _
    rw [String.data_append, String.data_append]
    rfl
  rw [hdata, List.cons_append, csvSplit_open, List.append_assoc,
    List.singleton_append]
  obtain ⟨cur2, h2⟩ := csvSplitFields_doubled s.data ('"' :: rest) cur
  rw [h2, csvSplit_close]
  exact ⟨cur2, rfl⟩

theorem csvSplitFields_flat_length (fields : List (String × Bool))
    (hne : fields ≠ [])
    (hsafe : ∀ f ∈ fields, f.2 = false → ∀ c ∈ f.1.data, ¬(c = ',') ∧ ¬(c = '"'))
    (cur : String) :
    (csvSplitFields (flatFields fields) false cur).length = fields.length := by
  induction fields generalizing cur with
  | nil => cases hne rfl
  | cons f fields ih =>
    obtain ⟨s, b⟩ := f
    cases fields with
    | nil =>
      rcases b with _ | _
      · have hs := hsafe (s, false) (by simp) rfl
        show (csvSplitFields (renderCSVField (s, false)).data false cur).length = 1
        rw [show (renderCSVField (s, false)).data = s.data ++ [] by
          simp [renderCSVField]]
        rw [csvSplitFields_safe s.data hs [] cur]
        rfl
      · show (csvSplitFields (renderCSVField (s, true)).data false cur).length = 1
        rw [show (renderCSVField (s, true)).data
            = (csvEscapeAlways s).data ++ [] by simp [renderCSVField]]
        obtain ⟨cur2, h2⟩ := csvSplitFields_escaped s [] cur
        rw [h2]
        rfl
    | cons g rest =>
      have hflat : flatFields ((s, b) :: g :: rest)
          = (renderCSVField (s, b)).data ++ ',' :: flatFields (g :: rest) := rfl
      rcases b with _ | _
      · have hs := hsafe (s, false) (by simp) rfl
        rw [hflat]
        rw [show (renderCSVField (s, false)).data = s.data from rfl]
        rw [csvSplitFields_safe s.data hs (',' :: flatFields (g :: rest)) cur]
        rw [csvSplit_step_comma]
        rw [List.length_cons, ih (by simp)
          (fun x hx h2 => hsafe x (by simp [hx]) h2) ""]
        rfl
      · rw [hflat]
        rw [show (renderCSVField (s, true)).data = (csvEscapeAlways s).data from rfl]
        obtain ⟨cur2, h2⟩ := csvSplitFields_escaped s (',' :: flatFields (g :: rest)) cur
        rw [h2, csvSplit_step_comma]
        rw [List.length_cons, ih (by simp)
          (fun x hx h2 => hsafe x (by simp [hx]) h2) ""]
        rfl

theorem monarchRow_fields (o : RejectedOrder) :
    monarchRejectionRow o = joinSep ","
      ([(o.invoiceNumber, false), (o.customerName, true), (o.productName, true),
        (o.poNumber, true), (o.dueDate, false), (o.amount, false),
        (o.reason, true)].map renderCSVField) := rfl

theorem wipRow_fields (o : WIPRejected) :
    wipRejectionRow o = joinSep ","
      ([(o.orderId, false), (o.customerName, true), (o.projectName, true),
        (o.dueDate, false), (o.orderValue, false),
        (o.reason, true)].map renderCSVField) := rfl

theorem foldl_rows_join {α : Type} (g : α → String) :
    ∀ (l : List α) (init : String),
      l.foldl (fun acc o => acc ++ g o ++ "\n") init
        = init ++ joinAll (l.map (fun o => g o ++ "\n")) := by
  intro l
  induction l with
  | nil =>
    intro init
    show init = init ++ joinAll []
    cases init with
    | mk d => show String.mk d = String.mk (d ++ []); simp
  | cons x l ih =>
    intro init
    simp only [List.foldl_cons, List.map_cons]
    rw [ih (init ++ g x ++ "\n")]
    show init ++ g x ++ "\n" ++ joinAll (l.map fun o => g o ++ "\n")
      = init ++ ((g x ++ "\n") ++ joinAll (l.map fun o => g o ++ "\n"))
    simp only [String.append_assoc]

set_option maxRecDepth 4000 in
/-- Claim C9 counterexample: a rejected order whose amount is "1,234.56"
produces a data row that a standard CSV reader splits into 8 fields instead
of the header's 7 — the amount column is written raw, not double-quote
escaped, although it contains a comma. -/
theorem counterexample_C9 :
    jsIncludes sampleRejected.amount "," = true ∧
    (csvSplitLine monarchRejectionHeader).length = 7 ∧
    (csvSplitLine ((jsSplit (monarchRejectionFile [sampleRejected]) "\n").getD 1 "")).length
      = 8 := by
  refine ⟨by decide, by decide, by decide⟩

/-- Claim C9 (amended): the rejection reports carry exactly the claimed header
rows, and the customer-name, product/project-name, PO-number and reason
columns are double-quote-escaped per standard CSV quoting (so a standard
reader recovers exactly 7 / 6 columns whenever the raw invoice-id, date and
amount columns are comma- and quote-free); the invoice/order id, due date and
amount/order-value columns are written raw, and with no rejected records the
generators return "No rejected orders." instead of a CSV. -/
theorem spec_C9 :
    monarchRejectionHeader
      = "Invoice Number,Customer Name,Product,PO Number,Due Date,Amount,Rejection Reason" ∧
    wipRejectionHeader
      = "Order ID,Customer Name,Project Name,Due Date,Order Value,Rejection Reason" ∧
    monarchRejectionFile [] = "No rejected orders." ∧
    wipRejectionFile [] = "No rejected orders." ∧
    (∀ rejected : List RejectedOrder, rejected ≠ [] →
      monarchRejectionFile rejected
        = monarchRejectionHeader ++ "\n"
          ++ joinAll (rejected.map (fun o => monarchRejectionRow o ++ "\n"))) ∧
    (∀ rejected : List WIPRejected, rejected ≠ [] →
      wipRejectionFile rejected
        = wipRejectionHeader ++ "\n"
          ++ joinAll (rejected.map (fun o => wipRejectionRow o ++ "\n"))) ∧
    (∀ o : RejectedOrder,
      (∀ c ∈ o.invoiceNumber.data, ¬(c = ',') ∧ ¬(c = '"')) →
      (∀ c ∈ o.dueDate.data, ¬(c = ',') ∧ ¬(c = '"')) →
      (∀ c ∈ o.amount.data, ¬(c = ',') ∧ ¬(c = '"')) →
      (csvSplitLine (monarchRejectionRow o)).length = 7) ∧
    (∀ o : WIPRejected,
      (∀ c ∈ o.orderId.data, ¬(c = ',') ∧ ¬(c = '"')) →
      (∀ c ∈ o.dueDate.data, ¬(c = ',') ∧ ¬(c = '"')) →
      (∀ c ∈ o.orderValue.data, ¬(c = ',') ∧ ¬(c = '"')) →
      (csvSplitLine (wipRejectionRow o)).length = 6) := by
  refine ⟨by decide, by decide, rfl, rfl, ?_, ?_, ?_, ?_⟩
  · intro rejected hne
    rw [monarchRejectionFile, if_neg (by simpa using hne)]
    exact foldl_rows_join monarchRejectionRow rejected (monarchRejectionHeader ++ "\n")
  · intro rejected hne
    rw [wipRejectionFile, if_neg (by simpa using hne)]
    exact foldl_rows_join wipRejectionRow rejected (wipRejectionHeader ++ "\n")
  · intro o h1 h5 h6
    have hsafeAll : ∀ f ∈ [(o.invoiceNumber, false), (o.customerName, true),
        (o.productName, true), (o.poNumber, true), (o.dueDate, false),
        (o.amount, false), (o.reason, true)],
        f.2 = false → ∀ c ∈ f.1.data, ¬(c = ',') ∧ ¬(c = '"') := by
      intro f hf hf2
      simp only [List.mem_cons, List.not_mem_nil, or_false] at hf
      rcases hf with rfl | rfl | rfl | rfl | rfl | rfl | rfl
      · exact h1
      · exact absurd hf2 (by simp)
      · exact absurd hf2 (by simp)
      · exact absurd hf2 (by simp)
      · exact h5
      · exact h6
      · exact absurd hf2 (by simp)
    rw [csvSplitLine, monarchRow_fields, flatFields_eq _ (by simp),
      csvSplitFields_flat_length _ (by simp) hsafeAll ""]
    rfl
  · intro o h1 h4 h5
    have hsafeAll : ∀ f ∈ [(o.orderId, false), (o.customerName, true),
        (o.projectName, true), (o.dueDate, false), (o.orderValue, false),
        (o.reason, true)],
        f.2 = false → ∀ c ∈ f.1.data, ¬(c = ',') ∧ ¬(c = '"') := by
      intro f hf hf2
      simp only [List.mem_cons, List.not_mem_nil, or_false] at hf
      rcases hf with rfl | rfl | rfl | rfl | rfl | rfl
      · exact h1
      · exact absurd hf2 (by simp)
      · exact absurd hf2 (by simp)
      · exact h4
      · exact h5
      · exact absurd hf2 (by simp)
    rw [csvSplitLine, wipRow_fields, flatFields_eq _ (by simp),
      csvSplitFields_flat_length _ (by simp) hsafeAll ""]
    rfl

/-! ## Invoice grouping and the customer resolver (claims C3 and C4) -/

theorem fieldVal_mkJobRecord_subJobId (a b c d e f g h i j k l : String) :
    fieldVal (mkJobRecord a b c d e f g h i j k l) "sub_job_id" = some (.str b) := rfl

theorem fieldVal_mkJobRecord_desc (a b c d e f g h i j k l : String) :
    fieldVal (mkJobRecord a b c d e f g h i j k l) "job_description"
      = some (.str c) := rfl

theorem fieldVal_mkJobRecord_custOrd (a b c d e f g h i j k l : String) :
    fieldVal (mkJobRecord a b c d e f g h i j k l) "cust_ordered_by"
      = some (.str d) := rfl

theorem fieldVal_mkJobRecord_custBill (a b c d e f g h i j k l : String) :
    fieldVal (mkJobRecord a b c d e f g h i j k l) "cust_billed_to"
      = some (.str d) := rfl

theorem fieldVal_mkWIPJobRecord_custOrd (a b c d e f : String) :
    fieldVal (mkWIPJobRecord a b c d e f) "cust_ordered_by" = some (.str b) := rfl

theorem fieldVal_mkWIPJobRecord_custBill (a b c d e f : String) :
    fieldVal (mkWIPJobRecord a b c d e f) "cust_billed_to" = some (.str b) := rfl

theorem buildSubJobs_length (ops : JsOps) (jobId custId po due ship contact : String) :
    ∀ (i : Nat) (os : List OrderRow),
      (buildSubJobs ops jobId custId po due ship contact i os).length = os.length := by
  intro i os
  induction os generalizing i with
  | nil => rfl
  | cons o os ih => simp [buildSubJobs, ih]

/-- The `k`-th sub-job of a group is built from the `k`-th remaining order
line and carries sub-job index `i + k`. -/
theorem buildSubJobs_getD (ops : JsOps) (jobId custId po due ship contact : String) :
    ∀ (os : List OrderRow) (i k : Nat), k < os.length →
      (buildSubJobs ops jobId custId po due ship contact i os).getD k []
        = mkJobRecord jobId (jsSubstring0 (jsPadEnd (toString (i + k)) 4 ' ') 4)
            (jsSubstring0 (cleanProductDescription (os.getD k emptyOrder).productName) 254)
            custId (jsSubstring0 po 20) due ship
            (condFixed0 ops (os.getD k emptyOrder).quantity)
            (jsSubstring0 contact 30)
            (condFixed2 ops (os.getD k emptyOrder).amount)
            (condFixed2 ops (os.getD k emptyOrder).unitPrice)
            (jsSubstring0 (cleanProductDescription (os.getD k emptyOrder).productName) 50) := by
  intro os
  induction os with
  | nil => intro i k hk; exact absurd hk (by simp)
  | cons o os ih =>
    intro i k hk
    cases k with
    | zero => simp [buildSubJobs]
    | succ k =>
      have hik : i + (k + 1) = (i + 1) + k := by omega
      rw [hik]
      exact ih (i + 1) k (by simpa using hk)

/-- Unfolding of the per-invoice loop body on a successful lookup. -/
theorem processGroup_found (ops : JsOps) (lookup : String → LookupOutcome)
    (customerData : List CustomerRow) (inv : String) (o : OrderRow)
    (rest : List OrderRow) (cid : String)
    (hfound : lookup o.customerName = .found cid) :
    processGroup ops lookup customerData inv (o :: rest)
      = ([mkJobRecord (monarchJobId inv) "    "
            (jsSubstring0 (cleanProductDescription o.productName) 254)
            (jsSubstring0 cid 8) (jsSubstring0 o.poNumber 20)
            (condFmtDate ops o.dueDate) (condFmtDate ops o.shippingDate)
            (condFixed0 ops o.quantity)
            (jsSubstring0 (contactNameFor customerData o.customerName) 30)
            (condFixed2 ops o.amount) (condFixed2 ops o.unitPrice)
            (jsSubstring0 (cleanProductDescription o.productName) 50)],
         buildSubJobs ops (monarchJobId inv) (jsSubstring0 cid 8) o.poNumber
           (condFmtDate ops o.dueDate) (condFmtDate ops o.shippingDate)
           (contactNameFor customerData o.customerName) 1 rest,
         []) := by
  simp only [processGroup, hfound]

/-- Unfolding of the per-invoice loop body on a lookup miss. -/
theorem processGroup_notFound (ops : JsOps) (lookup : String → LookupOutcome)
    (customerData : List CustomerRow) (inv : String) (o : OrderRow)
    (rest : List OrderRow) (hmiss : lookup o.customerName = .notFound) :
    processGroup ops lookup customerData inv (o :: rest)
      = ([], [], [mkRejectedOrder ops inv o
          "Customer not found in Monarch database"]) := by
  simp only [processGroup, hmiss]

/-- Unfolding of the per-invoice loop body on a lookup transport error. -/
theorem processGroup_apiError (ops : JsOps) (lookup : String → LookupOutcome)
    (customerData : List CustomerRow) (inv : String) (o : OrderRow)
    (rest : List OrderRow) (msg : String)
    (herr : lookup o.customerName = .apiError msg) :
    processGroup ops lookup customerData inv (o :: rest)
      = ([], [], [mkRejectedOrder ops inv o ("API Error: " ++ msg)]) := by
  simp only [processGroup, herr]

/-- Unfolding of the WIP mapping loop on a successful lookup. -/
theorem wipMap_found (ops : JsOps) (lookup : String → LookupOutcome)
    (row : WIPRow) (rest : List WIPRow) (cid : String)
    (hfound : lookup row.customerName = .found cid) :
    wipMapToMonarch ops lookup (row :: rest)
      = (mkWIPJobRecord (wipJobId (jsTrim row.orderId)) (jsSubstring0 cid 8)
           (jsSubstring0 row.projectName 254) (wipFmtDate ops row.dueDate)
           (condCurrency ops row.orderValue) (jsSubstring0 row.projectName 50)
          :: (wipMapToMonarch ops lookup rest).1,
         (wipMapToMonarch ops lookup rest).2) := by
  simp only [wipMapToMonarch, hfound]

/-- Unfolding of the WIP mapping loop on a lookup miss. -/
theorem wipMap_notFound (ops : JsOps) (lookup : String → LookupOutcome)
    (row : WIPRow) (rest : List WIPRow)
    (hmiss : lookup row.customerName = .notFound) :
    wipMapToMonarch ops lookup (row :: rest)
      = ((wipMapToMonarch ops lookup rest).1,
         { orderId := jsTrim row.orderId, customerName := row.customerName,
           projectName := row.projectName, dueDate := wipFmtDate ops row.dueDate,
           orderValue := condCurrency ops row.orderValue,
           reason := "Customer not found in Monarch database" }
          :: (wipMapToMonarch ops lookup rest).2) := by
  simp only [wipMapToMonarch, hmiss]

/-- Unfolding of the WIP mapping loop on a lookup transport error. -/
theorem wipMap_apiError (ops : JsOps) (lookup : String → LookupOutcome)
    (row : WIPRow) (rest : List WIPRow) (msg : String)
    (herr : lookup row.customerName = .apiError msg) :
    wipMapToMonarch ops lookup (row :: rest)
      = ((wipMapToMonarch ops lookup rest).1,
         { orderId := jsTrim row.orderId, customerName := row.customerName,
           projectName := row.projectName, dueDate := wipFmtDate ops row.dueDate,
           orderValue := condCurrency ops row.orderValue,
           reason := "API Error: " ++ msg }
          :: (wipMapToMonarch ops lookup rest).2) := by
  simp only [wipMapToMonarch, herr]

/-- Claim C3: an invoice group of `N` order lines whose customer lookup
succeeds yields exactly one main job with the blank 4-character sub-job id
and `N - 1` sub-jobs whose sub-job ids are the indices `1..N-1` (padded to 4
characters) in original file order, each built from the corresponding order
line, and every job of the group carries the same derived job id. -/
theorem spec_C3 (ops : JsOps) (lookup : String → LookupOutcome)
    (customerData : List CustomerRow) (inv : String) (firstOrder : OrderRow)
    (rest : List OrderRow) (cid : String)
    (hfound : lookup firstOrder.customerName = .found cid)
    (r : List (List NamedField) × List (List NamedField) × List RejectedOrder)
    (hr : r = processGroup ops lookup customerData inv (firstOrder :: rest)) :
    r.1.length = 1 ∧
    r.2.1.length = rest.length ∧
    r.2.2 = [] ∧
    (∀ j ∈ r.1, fieldVal j "sub_job_id" = some (.str "    ") ∧
      fieldVal j "job_id" = some (.str (monarchJobId inv))) ∧
    (∀ k, k < rest.length →
      fieldVal (r.2.1.getD k []) "sub_job_id"
        = some (.str (jsSubstring0 (jsPadEnd (toString (k + 1)) 4 ' ') 4)) ∧
      fieldVal (r.2.1.getD k []) "job_id" = some (.str (monarchJobId inv)) ∧
      fieldVal (r.2.1.getD k []) "job_description"
        = some (.str (jsSubstring0
            (cleanProductDescription ((rest.getD k emptyOrder).productName)) 254))) := by
  subst hr
  rw [processGroup_found ops lookup customerData inv firstOrder rest cid hfound]
  refine ⟨rfl, buildSubJobs_length ops _ _ _ _ _ _ 1 rest, rfl, ?_, ?_⟩
  · intro j hj
    simp only [List.mem_singleton] at hj
    subst hj
    exact ⟨rfl, rfl⟩
  · intro k hk
    have h1k : 1 + k = k + 1 := by omega
    rw [buildSubJobs_getD ops _ _ _ _ _ _ rest 1 k hk, h1k]
    exact ⟨rfl, rfl, rfl⟩

/-- Witness for C3 at a two-line invoice group with a successful lookup. -/
theorem spec_C3_witness :
    (lookupHit sampleOrder1.customerName = .found "MONCUST99" ∧
      (processGroup sampleOps lookupHit [] "520" (sampleOrder1 :: [sampleOrder2]))
        = processGroup sampleOps lookupHit [] "520" (sampleOrder1 :: [sampleOrder2])) ∧
    ((processGroup sampleOps lookupHit [] "520" (sampleOrder1 :: [sampleOrder2])).1.length = 1 ∧
     (processGroup sampleOps lookupHit [] "520" (sampleOrder1 :: [sampleOrder2])).2.1.length
        = [sampleOrder2].length ∧
     (processGroup sampleOps lookupHit [] "520" (sampleOrder1 :: [sampleOrder2])).2.2 = [] ∧
     (∀ j ∈ (processGroup sampleOps lookupHit [] "520" (sampleOrder1 :: [sampleOrder2])).1,
        fieldVal j "sub_job_id" = some (.str "    ") ∧
        fieldVal j "job_id" = some (.str (monarchJobId "520"))) ∧
     (∀ k, k < [sampleOrder2].length →
        fieldVal ((processGroup sampleOps lookupHit [] "520"
            (sampleOrder1 :: [sampleOrder2])).2.1.getD k []) "sub_job_id"
          = some (.str (jsSubstring0 (jsPadEnd (toString (k + 1)) 4 ' ') 4)) ∧
        fieldVal ((processGroup sampleOps lookupHit [] "520"
            (sampleOrder1 :: [sampleOrder2])).2.1.getD k []) "job_id"
          = some (.str (monarchJobId "520")) ∧
        fieldVal ((processGroup sampleOps lookupHit [] "520"
            (sampleOrder1 :: [sampleOrder2])).2.1.getD k []) "job_description"
          = some (.str (jsSubstring0
              (cleanProductDescription (([sampleOrder2].getD k emptyOrder).productName))
              254)))) :=
  ⟨⟨rfl, rfl⟩,
   spec_C3 sampleOps lookupHit [] "520" sampleOrder1 [sampleOrder2] "MONCUST99" rfl _ rfl⟩

/-- Every sub-job of a group, as a member list. -/
theorem buildSubJobs_mem_custIds (ops : JsOps)
    (jobId custId po due ship contact : String) (i : Nat) (os : List OrderRow) :
    ∀ j ∈ buildSubJobs ops jobId custId po due ship contact i os,
      fieldVal j "cust_ordered_by" = some (.str custId) ∧
      fieldVal j "cust_billed_to" = some (.str custId) := by
  induction os generalizing i with
  | nil => simp [buildSubJobs]
  | cons o os ih =>
    intro j hj
    simp only [buildSubJobs, List.mem_cons] at hj
    rcases hj with rfl | hj
    · exact ⟨rfl, rfl⟩
    · exact ih (i + 1) j hj

/-- Claim C4: every record that reaches the resolver produces exactly one of
a job record (customer id truncated to 8 characters) or one rejected record
with the documented reason — never both, never neither — and a failed lookup
never aborts the remaining groups or rows. -/
theorem spec_C4 :
    (∀ (ops : JsOps) (lookup : String → LookupOutcome)
      (customerData : List CustomerRow) (inv : String) (o : OrderRow)
      (rest : List OrderRow) (cid : String),
      lookup o.customerName = .found cid →
      (processGroup ops lookup customerData inv (o :: rest)).1.length = 1 ∧
      (processGroup ops lookup customerData inv (o :: rest)).2.1.length = rest.length ∧
      (processGroup ops lookup customerData inv (o :: rest)).2.2 = [] ∧
      (∀ j ∈ (processGroup ops lookup customerData inv (o :: rest)).1
          ++ (processGroup ops lookup customerData inv (o :: rest)).2.1,
        fieldVal j "cust_ordered_by" = some (.str (jsSubstring0 cid 8)) ∧
        fieldVal j "cust_billed_to" = some (.str (jsSubstring0 cid 8)))) ∧
    (∀ (ops : JsOps) (lookup : String → LookupOutcome)
      (customerData : List CustomerRow) (inv : String) (o : OrderRow)
      (rest : List OrderRow),
      lookup o.customerName = .notFound →
      processGroup ops lookup customerData inv (o :: rest)
        = ([], [], [mkRejectedOrder ops inv o
            "Customer not found in Monarch database"])) ∧
    (∀ (ops : JsOps) (lookup : String → LookupOutcome)
      (customerData : List CustomerRow) (inv : String) (o : OrderRow)
      (rest : List OrderRow) (msg : String),
      lookup o.customerName = .apiError msg →
      processGroup ops lookup customerData inv (o :: rest)
        = ([], [], [mkRejectedOrder ops inv o ("API Error: " ++ msg)])) ∧
    (∀ (ops : JsOps) (lookup : String → LookupOutcome)
      (customerData : List CustomerRow) (inv : String) (o : OrderRow)
      (rest : List OrderRow),
      ((processGroup ops lookup customerData inv (o :: rest)).1.length
          + (processGroup ops lookup customerData inv (o :: rest)).2.1.length
          = rest.length + 1 ∧
        (processGroup ops lookup customerData inv (o :: rest)).2.2 = []) ∨
      ((processGroup ops lookup customerData inv (o :: rest)).1 = [] ∧
        (processGroup ops lookup customerData inv (o :: rest)).2.1 = [] ∧
        ∃ rej, (processGroup ops lookup customerData inv (o :: rest)).2.2 = [rej] ∧
          rej.reason ≠ "")) ∧
    (∀ (ops : JsOps) (lookup : String → LookupOutcome)
      (customerData : List CustomerRow) (g : String × List OrderRow)
      (gs : List (String × List OrderRow)),
      processGroups ops lookup customerData (g :: gs)
        = ((processGroup ops lookup customerData g.1 g.2).1
              ++ (processGroups ops lookup customerData gs).1,
            (processGroup ops lookup customerData g.1 g.2).2.1
              ++ (processGroups ops lookup customerData gs).2.1,
            (processGroup ops lookup customerData g.1 g.2).2.2
              ++ (processGroups ops lookup customerData gs).2.2)) ∧
    (∀ (ops : JsOps) (lookup : String → LookupOutcome) (row : WIPRow)
      (rest : List WIPRow) (cid : String),
      lookup row.customerName = .found cid →
      (wipMapToMonarch ops lookup (row :: rest)).1
        = mkWIPJobRecord (wipJobId (jsTrim row.orderId)) (jsSubstring0 cid 8)
            (jsSubstring0 row.projectName 254) (wipFmtDate ops row.dueDate)
            (condCurrency ops row.orderValue) (jsSubstring0 row.projectName 50)
          :: (wipMapToMonarch ops lookup rest).1 ∧
      (wipMapToMonarch ops lookup (row :: rest)).2
        = (wipMapToMonarch ops lookup rest).2) ∧
    (∀ (ops : JsOps) (lookup : String → LookupOutcome) (row : WIPRow)
      (rest : List WIPRow),
      lookup row.customerName = .notFound →
      (wipMapToMonarch ops lookup (row :: rest)).1
        = (wipMapToMonarch ops lookup rest).1 ∧
      (wipMapToMonarch ops lookup (row :: rest)).2
        = { orderId := jsTrim row.orderId, customerName := row.customerName,
            projectName := row.projectName, dueDate := wipFmtDate ops row.dueDate,
            orderValue := condCurrency ops row.orderValue,
            reason := "Customer not found in Monarch database" }
          :: (wipMapToMonarch ops lookup rest).2) ∧
    (∀ (ops : JsOps) (lookup : String → LookupOutcome) (row : WIPRow)
      (rest : List WIPRow) (msg : String),
      lookup row.customerName = .apiError msg →
      (wipMapToMonarch ops lookup (row :: rest)).1
        = (wipMapToMonarch ops lookup rest).1 ∧
      (wipMapToMonarch ops lookup (row :: rest)).2
        = { orderId := jsTrim row.orderId, customerName := row.customerName,
            projectName := row.projectName, dueDate := wipFmtDate ops row.dueDate,
            orderValue := condCurrency ops row.orderValue,
            reason := "API Error: " ++ msg }
          :: (wipMapToMonarch ops lookup rest).2) := by
  refine ⟨?_, ?_, ?_, ?_, ?_, ?_, ?_, ?_⟩
  · intro ops lookup customerData inv o rest cid hfound
    rw [processGroup_found ops lookup customerData inv o rest cid hfound]
    refine ⟨rfl, buildSubJobs_length ops _ _ _ _ _ _ 1 rest, rfl, ?_⟩
    intro j hj
    rcases List.mem_append.mp hj with hj | hj
    · simp only [List.mem_singleton] at hj
      subst hj
      exact ⟨rfl, rfl⟩
    · exact buildSubJobs_mem_custIds ops _ _ _ _ _ _ 1 rest j hj
  · intro ops lookup customerData inv o rest hmiss
    exact processGroup_notFound ops lookup customerData inv o rest hmiss
  · intro ops lookup customerData inv o rest msg herr
    exact processGroup_apiError ops lookup customerData inv o rest msg herr
  · intro ops lookup customerData inv o rest
    rcases hl : lookup o.customerName with cid | _ | msg
    · left
      rw [processGroup_found ops lookup customerData inv o rest cid hl]
      constructor
      · show 1 + (buildSubJobs ops _ _ _ _ _ _ 1 rest).length = rest.length + 1
        rw [buildSubJobs_length ops _ _ _ _ _ _ 1 rest]
        omega
      · rfl
    · right
      rw [processGroup_notFound ops lookup customerData inv o rest hl]
      refine ⟨rfl, rfl,
        mkRejectedOrder ops inv o "Customer not found in Monarch database",
        rfl, ?_⟩
      show "Customer not found in Monarch database" ≠ ""
      decide
    · right
      rw [processGroup_apiError ops lookup customerData inv o rest msg hl]
      refine ⟨rfl, rfl, mkRejectedOrder ops inv o ("API Error: " ++ msg), rfl, ?_⟩
      show "API Error: " ++ msg ≠ ""
      intro hcon
      have hlen : ("API Error: " ++ msg).length = 0 := by rw [hcon]; rfl
      rw [String.length_append] at hlen
      have h11 : ("API Error: " : String).length = 11 := rfl
      rw [h11] at hlen
      omega
  · intro ops lookup customerData g gs
    obtain ⟨inv, orders⟩ := g
    rfl
  · intro ops lookup row rest cid hfound
    rw [wipMap_found ops lookup row rest cid hfound]
    exact ⟨rfl, rfl⟩
  · intro ops lookup row rest hmiss
    rw [wipMap_notFound ops lookup row rest hmiss]
    exact ⟨rfl, rfl⟩
  · intro ops lookup row rest msg herr
    rw [wipMap_apiError ops lookup row rest msg herr]
    exact ⟨rfl, rfl⟩

/-- Witness for C4: a lookup miss produces exactly one rejected record with
the documented reason and no job record. -/
theorem spec_C4_witness :
    lookupMiss sampleOrder1.customerName = .notFound ∧
    processGroup sampleOps lookupMiss [] "520" (sampleOrder1 :: [sampleOrder2])
      = ([], [], [mkRejectedOrder sampleOps "520" sampleOrder1
          "Customer not found in Monarch database"]) :=
  ⟨rfl, spec_C4.2.1 sampleOps lookupMiss [] "520" sampleOrder1 [sampleOrder2] rfl⟩

/-! ## Orchestrator result shapes (claim C8) -/

theorem mkJobRecord_ok (a b c d e f g h i j k l : String) :
    (mkJobRecord a b c d e f g h i j k l).all
      (fun nf => okForGuard JSVal.truthy nf.2.value) = true := rfl

theorem mkWIPJobRecord_ok (a b c d e f : String) :
    (mkWIPJobRecord a b c d e f).all
      (fun nf => okForGuard JSVal.truthy nf.2.value) = true := rfl

theorem buildSubJobs_all_ok (ops : JsOps)
    (jobId custId po due ship contact : String) :
    ∀ (i : Nat) (os : List OrderRow),
      ∀ j ∈ buildSubJobs ops jobId custId po due ship contact i os,
        j.all (fun nf => okForGuard JSVal.truthy nf.2.value) = true := by
  intro i os
  induction os generalizing i with
  | nil => simp [buildSubJobs]
  | cons o os ih =>
    intro j hj
    simp only [buildSubJobs, List.mem_cons] at hj
    rcases hj with rfl | hj
    · exact mkJobRecord_ok _ _ _ _ _ _ _ _ _ _ _ _
    · exact ih (i + 1) j hj

theorem processGroup_jobs_ok (ops : JsOps) (lookup : String → LookupOutcome)
    (customerData : List CustomerRow) (inv : String) :
    ∀ (orders : List OrderRow),
      ∀ j ∈ (processGroup ops lookup customerData inv orders).1
          ++ (processGroup ops lookup customerData inv orders).2.1,
        j.all (fun nf => okForGuard JSVal.truthy nf.2.value) = true := by
  intro orders
  cases orders with
  | nil => simp [processGroup]
  | cons o rest =>
    intro j hj
    rcases hl : lookup o.customerName with cid | _ | msg
    · rw [processGroup_found ops lookup customerData inv o rest cid hl] at hj
      rcases List.mem_append.mp hj with hj | hj
      · simp only [List.mem_singleton] at hj
        subst hj
        exact mkJobRecord_ok _ _ _ _ _ _ _ _ _ _ _ _
      · exact buildSubJobs_all_ok ops _ _ _ _ _ _ 1 rest j hj
    · rw [processGroup_notFound ops lookup customerData inv o rest hl] at hj
      simp at hj
    · rw [processGroup_apiError ops lookup customerData inv o rest msg hl] at hj
      simp at hj

theorem processGroups_jobs_ok (ops : JsOps) (lookup : String → LookupOutcome)
    (customerData : List CustomerRow) :
    ∀ (gs : List (String × List OrderRow)),
      ∀ j ∈ (processGroups ops lookup customerData gs).1
          ++ (processGroups ops lookup customerData gs).2.1,
        j.all (fun nf => okForGuard JSVal.truthy nf.2.value) = true := by
  intro gs
  induction gs with
  | nil => simp [processGroups]
  | cons g gs ih =>
    intro j hj
    obtain ⟨inv, orders⟩ := g
    simp only [processGroups, List.mem_append] at hj
    rcases hj with hj | hj
    · rcases hj with hj | hj
      · exact processGroup_jobs_ok ops lookup customerData inv orders j
          (List.mem_append.mpr (Or.inl hj))
      · exact ih j (List.mem_append.mpr (Or.inl hj))
    · rcases hj with hj | hj
      · exact processGroup_jobs_ok ops lookup customerData inv orders j
          (List.mem_append.mpr (Or.inr hj))
      · exact ih j (List.mem_append.mpr (Or.inr hj))

theorem wipMap_jobs_ok (ops : JsOps) (lookup : String → LookupOutcome) :
    ∀ (rows : List WIPRow),
      ∀ j ∈ (wipMapToMonarch ops lookup rows).1,
        j.all (fun nf => okForGuard JSVal.truthy nf.2.value) = true := by
  intro rows
  induction rows with
  | nil => simp [wipMapToMonarch]
  | cons row rest ih =>
    intro j hj
    rcases hl : lookup row.customerName with cid | _ | msg
    · rw [wipMap_found ops lookup row rest cid hl] at hj
      rcases List.mem_cons.mp hj with rfl | hj
      · exact mkWIPJobRecord_ok _ _ _ _ _ _
      · exact ih j hj
    · rw [wipMap_notFound ops lookup row rest hl] at hj
      exact ih j hj
    · rw [wipMap_apiError ops lookup row rest msg hl] at hj
      exact ih j hj

theorem generateFixedWidthFile_some :
    ∀ (jobs : List (List NamedField)),
      (∀ j ∈ jobs, j.all (fun nf => okForGuard JSVal.truthy nf.2.value) = true) →
      ∃ s, generateFixedWidthFile jobs = some s := by
  intro jobs
  induction jobs with
  | nil => exact fun _ => ⟨"", rfl⟩
  | cons j js ih =>
    intro h
    obtain ⟨l, hl, _⟩ := encodeFields_some_length JSVal.truthy j
      (List.replicate 560 ' ')
      (fun nf hnf => List.all_eq_true.mp (h j (by simp)) nf hnf)
    obtain ⟨s, hs⟩ := ih (fun x hx => h x (by simp [hx]))
    refine ⟨String.mk l ++ "\n" ++ s, ?_⟩
    simp only [generateFixedWidthFile, generateJobLine]
    rw [hl, hs]
    rfl

theorem generateWIPFile_some :
    ∀ (jobs : List (List NamedField)),
      (∀ j ∈ jobs, j.all (fun nf => okForGuard JSVal.truthy nf.2.value) = true) →
      ∃ s, generateWIPFile jobs = some s := by
  intro jobs
  induction jobs with
  | nil => exact fun _ => ⟨"", rfl⟩
  | cons j js ih =>
    intro h
    obtain ⟨l, hl, _⟩ := encodeFields_some_length JSVal.truthy
      (j.filter (fun nf => nf.fst != "_metadata")) (List.replicate 560 ' ')
      (fun nf hnf => List.all_eq_true.mp (h j (by simp))
        nf (List.mem_of_mem_filter hnf))
    obtain ⟨s, hs⟩ := ih (fun x hx => h x (by simp [hx]))
    refine ⟨String.mk l ++ "\n" ++ s, ?_⟩
    simp only [generateWIPFile, generateWIPLine]
    rw [hl, hs]
    rfl

/-- Claim C8: every orchestrator entry point returns the discriminated result
shape — `success := false` with a prefixed error message when the parse step
rejects (or the input is empty / entirely skipped), `success := true` with
the documented counts when the pipeline completes — and, being a total
function into `ImportResult`, never propagates an exception to its caller. -/
theorem spec_C8 :
    (∀ (ops : JsOps) (lookup : String → LookupOutcome) (e : String),
      processFiles ops lookup (.error e)
        = { success := false, message := "Error processing files: " ++ e }) ∧
    (∀ (ops : JsOps) (lookup : String → LookupOutcome)
      (customerData : List CustomerRow) (orderData : List OrderRow),
      (processFiles ops lookup (.ok (customerData, orderData))).success = true ∧
      (processFiles ops lookup (.ok (customerData, orderData))).rejectedCount
        = some (mapOrdersToMonarch ops lookup customerData orderData).2.2.length) ∧
    (∀ e : String, customerProcessFile (.error e)
      = { success := false, message := "Error processing customer list: " ++ e }) ∧
    (customerProcessFile (.ok ())
      = { success := true,
          message := "Customer import file generated successfully!" }) ∧
    (∀ (ops : JsOps) (lookup : String → LookupOutcome) (cols e : String),
      wipProcessFile ops lookup cols (.error e)
        = { success := false, message := "Error processing XLS file: " ++ e }) ∧
    (∀ (ops : JsOps) (lookup : String → LookupOutcome) (cols : String),
      wipProcessFile ops lookup cols (.ok [])
        = { success := false, message := "No data found in XLS file" }) ∧
    (∀ (ops : JsOps) (lookup : String → LookupOutcome) (cols : String)
      (rows : List WIPRow), rows ≠ [] → (filterValidOrders rows).1 = [] →
      (wipProcessFile ops lookup cols (.ok rows)).success = false) ∧
    (∀ (ops : JsOps) (lookup : String → LookupOutcome) (cols : String)
      (rows : List WIPRow), (filterValidOrders rows).1 ≠ [] →
      (wipProcessFile ops lookup cols (.ok rows)).success = true ∧
      (wipProcessFile ops lookup cols (.ok rows)).recordCount
        = some ((filterValidOrders rows).1.length
            - (wipMapToMonarch ops lookup (filterValidOrders rows).1).2.length) ∧
      (wipProcessFile ops lookup cols (.ok rows)).skippedCount
        = some (filterValidOrders rows).2.length ∧
      (wipProcessFile ops lookup cols (.ok rows)).rejectedCount
        = some (wipMapToMonarch ops lookup (filterValidOrders rows).1).2.length) := by
  refine ⟨fun _ _ _ => rfl, ?_, fun _ => rfl, rfl, fun _ _ _ _ => rfl,
    fun _ _ _ => rfl, ?_, ?_⟩
  · intro ops lookup customerData orderData
    obtain ⟨s1, h1⟩ := generateFixedWidthFile_some
      (mapOrdersToMonarch ops lookup customerData orderData).1
      (fun j hj => processGroups_jobs_ok ops lookup customerData _ j
        (List.mem_append.mpr (Or.inl hj)))
    obtain ⟨s2, h2⟩ := generateFixedWidthFile_some
      (mapOrdersToMonarch ops lookup customerData orderData).2.1
      (fun j hj => processGroups_jobs_ok ops lookup customerData _ j
        (List.mem_append.mpr (Or.inr hj)))
    constructor
    · show (processFiles ops lookup (.ok (customerData, orderData))).success = true
      simp only [processFiles]
      rw [h1, h2]
    · show (processFiles ops lookup (.ok (customerData, orderData))).rejectedCount = _
      simp only [processFiles]
      rw [h1, h2]
  · intro ops lookup cols rows hne hfil
    have hlen : ¬(rows.length = 0) := by
      intro h0
      exact hne (List.length_eq_zero.mp h0)
    have hlen2 : (filterValidOrders rows).1.length = 0 := by
      rw [hfil]
      rfl
    simp only [wipProcessFile]
    rw [if_neg hlen, if_pos hlen2]
  · intro ops lookup cols rows hfil
    have hne : rows ≠ [] := by
      intro h0
      subst h0
      exact hfil rfl
    have hlen : ¬(rows.length = 0) := by
      intro h0
      exact hne (List.length_eq_zero.mp h0)
    have hlen2 : ¬((filterValidOrders rows).1.length = 0) := by
      intro h0
      exact hfil (List.length_eq_zero.mp h0)
    obtain ⟨s, hs⟩ := generateWIPFile_some
      (wipMapToMonarch ops lookup (filterValidOrders rows).1).1
      (wipMap_jobs_ok ops lookup (filterValidOrders rows).1)
    refine ⟨?_, ?_, ?_, ?_⟩ <;>
      · simp only [wipProcessFile]
        rw [if_neg hlen, if_neg hlen2, hs]

/-- Witness for C8: the WIP orchestrator on one valid row reports success
with the documented counts. -/
theorem spec_C8_witness :
    (filterValidOrders [sampleWIPRow]).1 ≠ [] ∧
    ((wipProcessFile sampleOps lookupHit "cols" (.ok [sampleWIPRow])).success = true ∧
     (wipProcessFile sampleOps lookupHit "cols" (.ok [sampleWIPRow])).recordCount
       = some ((filterValidOrders [sampleWIPRow]).1.length
           - (wipMapToMonarch sampleOps lookupHit
               (filterValidOrders [sampleWIPRow]).1).2.length) ∧
     (wipProcessFile sampleOps lookupHit "cols" (.ok [sampleWIPRow])).skippedCount
       = some (filterValidOrders [sampleWIPRow]).2.length ∧
     (wipProcessFile sampleOps lookupHit "cols" (.ok [sampleWIPRow])).rejectedCount
       = some (wipMapToMonarch sampleOps lookupHit
           (filterValidOrders [sampleWIPRow]).1).2.length) :=
  ⟨by decide,
   spec_C8.2.2.2.2.2.2.2 sampleOps lookupHit "cols" [sampleWIPRow] (by decide)⟩

/-- Witness for C9: a concrete comma-free rejected order splits back into
exactly the 7 header columns. -/
theorem spec_C9_witness :
    ((∀ c ∈ ("100" : String).data, ¬(c = ',') ∧ ¬(c = '"')) ∧
     (∀ c ∈ ("01/02/2025" : String).data, ¬(c = ',') ∧ ¬(c = '"')) ∧
     (∀ c ∈ ("150.00" : String).data, ¬(c = ',') ∧ ¬(c = '"'))) ∧
    (csvSplitLine (monarchRejectionRow
      { invoiceNumber := "100", customerName := "Acme, Inc.",
        productName := "Widget \"Pro\"", poNumber := "PO1",
        dueDate := "01/02/2025", amount := "150.00",
        reason := "Customer not found in Monarch database" })).length = 7 :=
  ⟨⟨by decide, by decide, by decide⟩,
   spec_C9.2.2.2.2.2.2.1
     { invoiceNumber := "100", customerName := "Acme, Inc.",
       productName := "Widget \"Pro\"", poNumber := "PO1",
       dueDate := "01/02/2025", amount := "150.00",
       reason := "Customer not found in Monarch database" }
     (by decide) (by decide) (by decide)⟩

end Monarch
